import Mathlib

/-!
Verification development for the retrieval-and-training subsystem of the
Government Scheme Chatbot repository. The JavaScript sources
(`backend/services/dataScraper.js`, `backend/services/vectorDB.js`,
`backend/services/ragTrainer.js`) are shallowly embedded: JavaScript numbers
that flow through the data plane are rationals, floating-point results of
`Math.sqrt` are modelled as real numbers, thrown exceptions are `Except`
errors, the mutable module state (in-memory vector arrays, files on disk)
is an explicit state record, and external services (embedding model,
ChromaDB, HTTP sources, the file system) are oracles in an environment
record.
-/

/-- A JavaScript exception, identified by its message. -/
abbrev JsError := String

/-- JavaScript `String.prototype.toLowerCase` modelled per character
(structural, so it evaluates inside the kernel). -/
def jsToLower (s : String) : String := ⟨s.data.map Char.toLower⟩

/-- JavaScript `String.prototype.trim` modelled on the character list
(structural, so it evaluates inside the kernel). -/
def jsTrim (s : String) : String :=
  ⟨((s.data.dropWhile Char.isWhitespace).reverse.dropWhile
      Char.isWhitespace).reverse⟩

/-- JavaScript `x || d` for a possibly-undefined string field:
`undefined` and the empty string are falsy. -/
def jsOr (x : Option String) (d : String) : String :=
  match x with
  | none => d
  | some s => if s = "" then d else s

/-- JavaScript `x || d` for a present string value (empty string is falsy). -/
def jsOrS (s d : String) : String :=
  if s = "" then d else s

/-- JavaScript `Array.isArray(x) ? x : []` for a possibly-undefined list field. -/
def jsArr (x : Option (List String)) : List String :=
  x.getD []

/-- A raw scheme record as merged from the data sources, before
`cleanAndDeduplicateData` (dataScraper.js). Every field may be absent
(`undefined`), which `Option` models; `name` and `category` must be strings
for the function to be exception-free (claim C10). -/
structure RawScheme where
  id : Option String
  name : Option String
  nameHindi : Option String
  nameTamil : Option String
  category : Option String
  categoryHindi : Option String
  categoryTamil : Option String
  objective : Option String
  objectiveHindi : Option String
  objectiveTamil : Option String
  eligibility : Option (List String)
  eligibilityHindi : Option (List String)
  eligibilityTamil : Option (List String)
  documentsRequired : Option (List String)
  documentsRequiredHindi : Option (List String)
  documentsRequiredTamil : Option (List String)
  applicationProcedure : Option (List String)
  applicationProcedureHindi : Option (List String)
  applicationProcedureTamil : Option (List String)
  benefits : Option String
  benefitsHindi : Option String
  benefitsTamil : Option String
  deadline : Option String
  deadlineHindi : Option String
  deadlineTamil : Option String
  contactInfo : Option String
  contactInfoHindi : Option String
  contactInfoTamil : Option String
  website : Option String
  source : Option String
  lastUpdated : Option String
  tags : Option (List String)
deriving DecidableEq

/-- A cleaned scheme record produced by `cleanAndDeduplicateData`
(dataScraper.js lines 339-372): every field is defined (total). -/
structure CleanedScheme where
  id : String
  name : String
  nameHindi : String
  nameTamil : String
  category : String
  categoryHindi : String
  categoryTamil : String
  objective : String
  objectiveHindi : String
  objectiveTamil : String
  eligibility : List String
  eligibilityHindi : List String
  eligibilityTamil : List String
  documentsRequired : List String
  documentsRequiredHindi : List String
  documentsRequiredTamil : List String
  applicationProcedure : List String
  applicationProcedureHindi : List String
  applicationProcedureTamil : List String
  benefits : String
  benefitsHindi : String
  benefitsTamil : String
  deadline : String
  deadlineHindi : String
  deadlineTamil : String
  contactInfo : String
  contactInfoHindi : String
  contactInfoTamil : String
  website : String
  source : String
  lastUpdated : String
  tags : List String
deriving DecidableEq

/-- The per-record cleaning step of `cleanAndDeduplicateData`
(dataScraper.js lines 339-372). `now` stands for
`new Date().toISOString()` and `fallbackId` for the generated id
`scheme-<Date.now()>-<random>` used when `scheme.id` is falsy. -/
def cleanScheme (now fallbackId : String) (s : RawScheme) : CleanedScheme :=
  { id := jsOr s.id fallbackId
    name := jsTrim (s.name.getD "")
    nameHindi := jsOr s.nameHindi ""
    nameTamil := jsOr s.nameTamil ""
    category := jsOr s.category "General"
    categoryHindi := jsOr s.categoryHindi ""
    categoryTamil := jsOr s.categoryTamil ""
    objective := jsOr s.objective ""
    objectiveHindi := jsOr s.objectiveHindi ""
    objectiveTamil := jsOr s.objectiveTamil ""
    eligibility := jsArr s.eligibility
    eligibilityHindi := jsArr s.eligibilityHindi
    eligibilityTamil := jsArr s.eligibilityTamil
    documentsRequired := jsArr s.documentsRequired
    documentsRequiredHindi := jsArr s.documentsRequiredHindi
    documentsRequiredTamil := jsArr s.documentsRequiredTamil
    applicationProcedure := jsArr s.applicationProcedure
    applicationProcedureHindi := jsArr s.applicationProcedureHindi
    applicationProcedureTamil := jsArr s.applicationProcedureTamil
    benefits := jsOr s.benefits ""
    benefitsHindi := jsOr s.benefitsHindi ""
    benefitsTamil := jsOr s.benefitsTamil ""
    deadline := jsOr s.deadline "Ongoing"
    deadlineHindi := jsOr s.deadlineHindi ""
    deadlineTamil := jsOr s.deadlineTamil ""
    contactInfo := jsOr s.contactInfo ""
    contactInfoHindi := jsOr s.contactInfoHindi ""
    contactInfoTamil := jsOr s.contactInfoTamil ""
    website := jsOr s.website ""
    source := jsOr s.source "Unknown"
    lastUpdated := now
    tags := jsArr s.tags }

/-- The composite deduplication key
`scheme.name.toLowerCase() + "-" + scheme.category.toLowerCase()`
(dataScraper.js line 333); evaluating it throws a `TypeError` when `name`
or `category` is `undefined`. -/
def rawKey (s : RawScheme) : Except JsError String :=
  match s.name, s.category with
  | some n, some c => .ok (jsToLower n ++ "-" ++ jsToLower c)
  | _, _ => .error "TypeError: Cannot read properties of undefined (reading toLowerCase)"

/-- Whether a raw record passes the keep test
`!seen.has(key) && scheme.name && scheme.name.trim()`
(dataScraper.js line 335), given that its key is not yet seen. -/
def rawNameTruthy (s : RawScheme) : Bool :=
  match s.name with
  | none => false
  | some n => n ≠ "" && jsTrim n ≠ ""

/-- Worker of `cleanAndDeduplicateData`: iterates the merged list with the
`seen` key set, the accumulated output (reversed) and the count of records
kept so far (used to index the generated fallback ids). -/
def cleanDedupGo (now : String) (freshId : Nat → String) :
    List RawScheme → List String → List CleanedScheme → Nat →
    Except JsError (List CleanedScheme)
  | [], _, acc, _ => .ok acc.reverse
  | s :: rest, seen, acc, k =>
    match rawKey s with
    | .error e => .error e
    | .ok key =>
      if key ∉ seen ∧ rawNameTruthy s then
        cleanDedupGo now freshId rest (key :: seen)
          (cleanScheme now (freshId k) s :: acc) (k + 1)
      else
        cleanDedupGo now freshId rest seen acc k

/-- `GovernmentDataScraper.cleanAndDeduplicateData` (dataScraper.js lines
327-379): dedupe the merged records by lower-cased name+category key,
first-seen wins, and normalise every kept record with `cleanScheme`. -/
def cleanAndDeduplicateData (now : String) (freshId : Nat → String)
    (schemes : List RawScheme) : Except JsError (List CleanedScheme) :=
  cleanDedupGo now freshId schemes [] [] 0

/-- The keys of the records that `cleanDedupGo` keeps, in order. -/
def keptKeysGo : List RawScheme → List String → List String
  | [], _ => []
  | s :: rest, seen =>
    match rawKey s with
    | .error _ => []
    | .ok key =>
      if key ∉ seen ∧ rawNameTruthy s then
        key :: keptKeysGo rest (key :: seen)
      else
        keptKeysGo rest seen

/-- The deduplication keys of the records kept by `cleanAndDeduplicateData`. -/
def keptKeys (schemes : List RawScheme) : List String :=
  keptKeysGo schemes []

/-- A raw record with every field absent, used to build concrete inputs. -/
def rawBase : RawScheme :=
  { id := none, name := none, nameHindi := none, nameTamil := none
    category := none, categoryHindi := none, categoryTamil := none
    objective := none, objectiveHindi := none, objectiveTamil := none
    eligibility := none, eligibilityHindi := none, eligibilityTamil := none
    documentsRequired := none, documentsRequiredHindi := none
    documentsRequiredTamil := none
    applicationProcedure := none, applicationProcedureHindi := none
    applicationProcedureTamil := none
    benefits := none, benefitsHindi := none, benefitsTamil := none
    deadline := none, deadlineHindi := none, deadlineTamil := none
    contactInfo := none, contactInfoHindi := none, contactInfoTamil := none
    website := none, source := none, lastUpdated := none, tags := none }

theorem keptKeysGo_cons_ok {s : RawScheme} {key : String}
    (rest : List RawScheme) (seen : List String) (h : rawKey s = .ok key) :
    keptKeysGo (s :: rest) seen =
      if key ∉ seen ∧ rawNameTruthy s then
        key :: keptKeysGo rest (key :: seen)
      else keptKeysGo rest seen := by
  simp [keptKeysGo, h]

theorem keptKeysGo_cons_err {s : RawScheme} {e : JsError}
    (rest : List RawScheme) (seen : List String) (h : rawKey s = .error e) :
    keptKeysGo (s :: rest) seen = [] := by
  simp [keptKeysGo, h]

theorem cleanDedupGo_cons_ok (now : String) (freshId : Nat → String)
    {s : RawScheme} {key : String} (rest : List RawScheme)
    (seen : List String) (acc : List CleanedScheme) (k : Nat)
    (h : rawKey s = .ok key) :
    cleanDedupGo now freshId (s :: rest) seen acc k =
      if key ∉ seen ∧ rawNameTruthy s then
        cleanDedupGo now freshId rest (key :: seen)
          (cleanScheme now (freshId k) s :: acc) (k + 1)
      else cleanDedupGo now freshId rest seen acc k := by
  simp [cleanDedupGo, h]

theorem cleanDedupGo_cons_err (now : String) (freshId : Nat → String)
    {s : RawScheme} {e : JsError} (rest : List RawScheme)
    (seen : List String) (acc : List CleanedScheme) (k : Nat)
    (h : rawKey s = .error e) :
    cleanDedupGo now freshId (s :: rest) seen acc k = .error e := by
  simp [cleanDedupGo, h]

theorem keptKeysGo_not_mem_seen :
    ∀ (l : List RawScheme) (seen : List String),
      ∀ k ∈ keptKeysGo l seen, k ∉ seen := by
  intro l
  induction l with
  | nil => intro seen k hk; simp [keptKeysGo] at hk
  | cons s rest ih =>
    intro seen k hk
    cases hkey : rawKey s with
    | error e => rw [keptKeysGo_cons_err rest seen hkey] at hk; simp at hk
    | ok key =>
      rw [keptKeysGo_cons_ok rest seen hkey] at hk
      by_cases hc : key ∉ seen ∧ rawNameTruthy s
      · rw [if_pos hc] at hk
        rcases List.mem_cons.mp hk with h | h
        · exact h ▸ hc.1
        · intro hmem
          exact ih (key :: seen) k h (List.mem_cons_of_mem _ hmem)
      · rw [if_neg hc] at hk
        exact ih seen k hk

theorem keptKeysGo_nodup :
    ∀ (l : List RawScheme) (seen : List String), (keptKeysGo l seen).Nodup := by
  intro l
  induction l with
  | nil => intro seen; simp [keptKeysGo]
  | cons s rest ih =>
    intro seen
    cases hkey : rawKey s with
    | error e => rw [keptKeysGo_cons_err rest seen hkey]; simp
    | ok key =>
      rw [keptKeysGo_cons_ok rest seen hkey]
      by_cases hc : key ∉ seen ∧ rawNameTruthy s
      · rw [if_pos hc]
        refine List.nodup_cons.mpr ⟨?_, ih (key :: seen)⟩
        intro hmem
        exact keptKeysGo_not_mem_seen rest (key :: seen) key hmem
          (List.mem_cons_self key seen)
      · rw [if_neg hc]
        exact ih seen

theorem cleanDedupGo_ok_length (now : String) (freshId : Nat → String) :
    ∀ (l : List RawScheme) (seen : List String) (acc : List CleanedScheme)
      (k : Nat) (out : List CleanedScheme),
      cleanDedupGo now freshId l seen acc k = .ok out →
      out.length = acc.length + (keptKeysGo l seen).length := by
  intro l
  induction l with
  | nil =>
    intro seen acc k out h
    simp only [cleanDedupGo] at h
    cases h
    simp [keptKeysGo]
  | cons s rest ih =>
    intro seen acc k out h
    cases hkey : rawKey s with
    | error e => rw [cleanDedupGo_cons_err now freshId rest seen acc k hkey] at h; cases h
    | ok key =>
      rw [cleanDedupGo_cons_ok now freshId rest seen acc k hkey] at h
      rw [keptKeysGo_cons_ok rest seen hkey]
      by_cases hc : key ∉ seen ∧ rawNameTruthy s
      · rw [if_pos hc] at h
        rw [if_pos hc]
        have := ih (key :: seen) (cleanScheme now (freshId k) s :: acc) (k + 1) out h
        simp only [List.length_cons] at this ⊢
        omega
      · rw [if_neg hc] at h
        rw [if_neg hc]
        exact ih seen acc k out h

theorem cleanDedupGo_lastUpdated (now : String) (freshId : Nat → String) :
    ∀ (l : List RawScheme) (seen : List String) (acc : List CleanedScheme)
      (k : Nat) (out : List CleanedScheme),
      (∀ x ∈ acc, x.lastUpdated = now) →
      cleanDedupGo now freshId l seen acc k = .ok out →
      ∀ x ∈ out, x.lastUpdated = now := by
  intro l
  induction l with
  | nil =>
    intro seen acc k out hacc h
    simp only [cleanDedupGo] at h
    cases h
    intro x hx
    exact hacc x (List.mem_reverse.mp hx)
  | cons s rest ih =>
    intro seen acc k out hacc h
    cases hkey : rawKey s with
    | error e => rw [cleanDedupGo_cons_err now freshId rest seen acc k hkey] at h; cases h
    | ok key =>
      rw [cleanDedupGo_cons_ok now freshId rest seen acc k hkey] at h
      by_cases hc : key ∉ seen ∧ rawNameTruthy s
      · rw [if_pos hc] at h
        refine ih (key :: seen) _ (k + 1) out ?_ h
        intro x hx
        rcases List.mem_cons.mp hx with hx | hx
        · rw [hx]; rfl
        · exact hacc x hx
      · rw [if_neg hc] at h
        exact ih seen acc k out hacc h

theorem cleanDedupGo_error_of_bad (now : String) (freshId : Nat → String) :
    ∀ (l : List RawScheme) (seen : List String) (acc : List CleanedScheme)
      (k : Nat),
      (∃ s ∈ l, s.name = none ∨ s.category = none) →
      ∃ e, cleanDedupGo now freshId l seen acc k = .error e := by
  intro l
  induction l with
  | nil => intro seen acc k h; simp at h
  | cons s rest ih =>
    intro seen acc k hbad
    cases hkey : rawKey s with
    | error e => exact ⟨e, cleanDedupGo_cons_err now freshId rest seen acc k hkey⟩
    | ok key =>
      have hs : s.name.isSome ∧ s.category.isSome := by
        unfold rawKey at hkey
        cases hn : s.name with
        | none => rw [hn] at hkey; cases hkey
        | some n =>
          cases hcn : s.category with
          | none => rw [hn, hcn] at hkey; cases hkey
          | some c => exact ⟨by simp [hn], by simp [hcn]⟩
      have hrest : ∃ t ∈ rest, t.name = none ∨ t.category = none := by
        rcases hbad with ⟨t, ht, hprop⟩
        rcases List.mem_cons.mp ht with rfl | ht'
        · rcases hprop with hp | hp
          · rw [hp] at hs; simp at hs
          · rw [hp] at hs; simp at hs
        · exact ⟨t, ht', hprop⟩
      rw [cleanDedupGo_cons_ok now freshId rest seen acc k hkey]
      by_cases hc : key ∉ seen ∧ rawNameTruthy s
      · rw [if_pos hc]; exact ih _ _ _ hrest
      · rw [if_neg hc]; exact ih _ _ _ hrest

theorem cleanDedupGo_ok_of_good (now : String) (freshId : Nat → String) :
    ∀ (l : List RawScheme) (seen : List String) (acc : List CleanedScheme)
      (k : Nat),
      (∀ s ∈ l, s.name.isSome ∧ s.category.isSome) →
      ∃ out, cleanDedupGo now freshId l seen acc k = .ok out := by
  intro l
  induction l with
  | nil => intro seen acc k _; exact ⟨acc.reverse, rfl⟩
  | cons s rest ih =>
    intro seen acc k hgood
    have hs := hgood s (List.mem_cons_self s rest)
    have hrest : ∀ t ∈ rest, t.name.isSome ∧ t.category.isSome := fun t ht =>
      hgood t (List.mem_cons_of_mem _ ht)
    rcases Option.isSome_iff_exists.mp hs.1 with ⟨n, hn⟩
    rcases Option.isSome_iff_exists.mp hs.2 with ⟨c, hcn⟩
    have hkey : rawKey s = .ok (jsToLower n ++ "-" ++ jsToLower c) := by
      unfold rawKey; rw [hn, hcn]
    rw [cleanDedupGo_cons_ok now freshId rest seen acc k hkey]
    by_cases hc : (jsToLower n ++ "-" ++ jsToLower c) ∉ seen ∧ rawNameTruthy s
    · rw [if_pos hc]; exact ih _ _ _ hrest
    · rw [if_neg hc]; exact ih _ _ _ hrest

/-- Concrete raw record with a blank name (a string, so no TypeError) and id `a`. -/
def blankNameA : RawScheme :=
  { rawBase with id := some "a", name := some "", category := some "c" }

/-- Concrete raw record with a blank name and id `b`. -/
def blankNameB : RawScheme :=
  { rawBase with id := some "b", name := some "", category := some "c" }

/-- Concrete raw record with a valid name and no `deadline` field. -/
def noDeadlineRec : RawScheme :=
  { rawBase with id := some "d1", name := some "Alpha", category := some "c" }

/-- Claim C7, counterexample. As stated the claim fails on the code in two
places. First, two input records with identical lower-cased name+category
(both blank) and different ids produce zero merged records, not exactly one:
`cleanAndDeduplicateData` drops every record whose name is blank. Second,
absent optional fields are not all defaulted to an empty string or empty
array: an absent `deadline` is defaulted to the non-empty string
`"Ongoing"` (likewise `category` to `"General"` and `source` to
`"Unknown"`). -/
theorem cleanAndDeduplicateData_claim_as_stated_false :
    cleanAndDeduplicateData "2024-01-01" (fun n => toString n)
        [blankNameA, blankNameB] = .ok []
    ∧ blankNameA.id ≠ blankNameB.id
    ∧ cleanAndDeduplicateData "2024-01-01" (fun n => toString n)
        [noDeadlineRec] =
        .ok [cleanScheme "2024-01-01" "0" noDeadlineRec]
    ∧ noDeadlineRec.deadline = none
    ∧ (cleanScheme "2024-01-01" "0" noDeadlineRec).deadline = "Ongoing"
    ∧ "Ongoing" ≠ "" := by
  refine ⟨?_, ?_, ?_, rfl, rfl, ?_⟩
  · rfl
  · simp [blankNameA, blankNameB, rawBase]
  · rfl
  · simp

/-- Claim C7 (amended): `cleanAndDeduplicateData` keeps at most one record
per composite key `lower(name) + "-" + lower(category)` (the kept keys are
pairwise distinct and the output has one record per kept key); for two
input records with identical keys, different ids, and a non-blank first
name, exactly the first-seen record is merged; and in every cleaned record
every field is defined: absent optional and localized fields default to the
empty string or empty array, except that `category` defaults to
`"General"`, `deadline` to `"Ongoing"` and `source` to `"Unknown"`, and
`lastUpdated` is set to the cleaning timestamp. -/
theorem cleanAndDeduplicateData_dedup_firstSeen_defaults
    (now : String) (freshId : Nat → String) (schemes : List RawScheme)
    (r1 r2 : RawScheme) (key : String)
    (hk1 : rawKey r1 = .ok key) (hk2 : rawKey r2 = .ok key)
    (hid : r1.id ≠ r2.id) (ht : rawNameTruthy r1 = true) :
    (keptKeys schemes).Nodup
    ∧ (∀ out, cleanAndDeduplicateData now freshId schemes = .ok out →
        out.length = (keptKeys schemes).length)
    ∧ cleanAndDeduplicateData now freshId [r1, r2] =
        .ok [cleanScheme now (freshId 0) r1]
    ∧ (∀ (s : RawScheme) (i : String),
        (s.nameHindi = none → (cleanScheme now i s).nameHindi = "")
        ∧ (s.nameTamil = none → (cleanScheme now i s).nameTamil = "")
        ∧ (s.category = none → (cleanScheme now i s).category = "General")
        ∧ (s.categoryHindi = none → (cleanScheme now i s).categoryHindi = "")
        ∧ (s.categoryTamil = none → (cleanScheme now i s).categoryTamil = "")
        ∧ (s.objective = none → (cleanScheme now i s).objective = "")
        ∧ (s.objectiveHindi = none → (cleanScheme now i s).objectiveHindi = "")
        ∧ (s.objectiveTamil = none → (cleanScheme now i s).objectiveTamil = "")
        ∧ (s.eligibility = none → (cleanScheme now i s).eligibility = [])
        ∧ (s.eligibilityHindi = none → (cleanScheme now i s).eligibilityHindi = [])
        ∧ (s.eligibilityTamil = none → (cleanScheme now i s).eligibilityTamil = [])
        ∧ (s.documentsRequired = none → (cleanScheme now i s).documentsRequired = [])
        ∧ (s.documentsRequiredHindi = none →
            (cleanScheme now i s).documentsRequiredHindi = [])
        ∧ (s.documentsRequiredTamil = none →
            (cleanScheme now i s).documentsRequiredTamil = [])
        ∧ (s.applicationProcedure = none →
            (cleanScheme now i s).applicationProcedure = [])
        ∧ (s.applicationProcedureHindi = none →
            (cleanScheme now i s).applicationProcedureHindi = [])
        ∧ (s.applicationProcedureTamil = none →
            (cleanScheme now i s).applicationProcedureTamil = [])
        ∧ (s.benefits = none → (cleanScheme now i s).benefits = "")
        ∧ (s.benefitsHindi = none → (cleanScheme now i s).benefitsHindi = "")
        ∧ (s.benefitsTamil = none → (cleanScheme now i s).benefitsTamil = "")
        ∧ (s.deadline = none → (cleanScheme now i s).deadline = "Ongoing")
        ∧ (s.deadlineHindi = none → (cleanScheme now i s).deadlineHindi = "")
        ∧ (s.deadlineTamil = none → (cleanScheme now i s).deadlineTamil = "")
        ∧ (s.contactInfo = none → (cleanScheme now i s).contactInfo = "")
        ∧ (s.contactInfoHindi = none → (cleanScheme now i s).contactInfoHindi = "")
        ∧ (s.contactInfoTamil = none → (cleanScheme now i s).contactInfoTamil = "")
        ∧ (s.website = none → (cleanScheme now i s).website = "")
        ∧ (s.source = none → (cleanScheme now i s).source = "Unknown")
        ∧ (s.tags = none → (cleanScheme now i s).tags = [])
        ∧ (cleanScheme now i s).lastUpdated = now) := by
  refine ⟨keptKeysGo_nodup schemes [], ?_, ?_, ?_⟩
  · intro out h
    have := cleanDedupGo_ok_length now freshId schemes [] [] 0 out h
    simpa [keptKeys] using this
  · rw [cleanAndDeduplicateData,
      cleanDedupGo_cons_ok now freshId [r2] [] [] 0 hk1,
      if_pos (by exact ⟨by simp, ht⟩),
      cleanDedupGo_cons_ok now freshId [] [key] [cleanScheme now (freshId 0) r1] 1 hk2,
      if_neg (by simp)]
    rfl
  · intro s i
    and_intros <;> (try intro h) <;> simp [cleanScheme, jsOr, jsArr, *]

/-- Witness for the amended claim C7 at concrete records `Alpha/ C` with
ids `a` and `b`: the hypotheses hold and exactly the first record is kept. -/
theorem cleanAndDeduplicateData_dedup_firstSeen_defaults_witness :
    rawKey { rawBase with id := some "a", name := some "Alpha", category := some "C" }
        = .ok "alpha-c"
    ∧ rawKey { rawBase with id := some "b", name := some "Alpha", category := some "C" }
        = .ok "alpha-c"
    ∧ cleanAndDeduplicateData "2024-01-01" (fun n => toString n)
        [{ rawBase with id := some "a", name := some "Alpha", category := some "C" },
         { rawBase with id := some "b", name := some "Alpha", category := some "C" }] =
        .ok [cleanScheme "2024-01-01" "0"
          { rawBase with id := some "a", name := some "Alpha", category := some "C" }] :=
  ⟨rfl, rfl,
    (cleanAndDeduplicateData_dedup_firstSeen_defaults "2024-01-01"
      (fun n => toString n) []
      { rawBase with id := some "a", name := some "Alpha", category := some "C" }
      { rawBase with id := some "b", name := some "Alpha", category := some "C" }
      "alpha-c" rfl rfl (by simp [rawBase]) rfl).2.2.1⟩

/-- Claim C10: `cleanAndDeduplicateData` computes the composite key by
calling `toLowerCase()` on `name` and `category` before the presence check,
so it throws on every input list containing a record whose `name` or
`category` is undefined, and it is exception-free exactly under the
precondition that every record carries string-valued `name` and
`category`. -/
theorem cleanAndDeduplicateData_requires_name_category
    (now : String) (freshId : Nat → String) (schemes : List RawScheme) :
    ((∃ s ∈ schemes, s.name = none ∨ s.category = none) →
      ∃ e, cleanAndDeduplicateData now freshId schemes = .error e)
    ∧ ((∀ s ∈ schemes, s.name.isSome ∧ s.category.isSome) →
      ∃ out, cleanAndDeduplicateData now freshId schemes = .ok out) :=
  ⟨fun h => cleanDedupGo_error_of_bad now freshId schemes [] [] 0 h,
   fun h => cleanDedupGo_ok_of_good now freshId schemes [] [] 0 h⟩

/-- Witness for claim C10 at a concrete record whose `name` is undefined
but whose `category` is a string: the call throws. -/
theorem cleanAndDeduplicateData_requires_name_category_witness :
    ∃ e, cleanAndDeduplicateData "2024-01-01" (fun n => toString n)
      [{ rawBase with category := some "c" }] = .error e :=
  (cleanAndDeduplicateData_requires_name_category "2024-01-01"
      (fun n => toString n) [{ rawBase with category := some "c" }]).1
    ⟨{ rawBase with category := some "c" }, by simp, Or.inl rfl⟩

/-- The successive slices `schemes.slice(start, start + batchSize)` taken by
the batch loop of `addSchemesToVectorDB` (vectorDB.js lines 176-207),
expressed on the remaining list. The source loop never terminates when the
chunk size is `0`; that case is modelled as producing no chunks, and every
claim about chunking assumes a positive chunk size. -/
def chunksOf {α : Type} (c : Nat) (l : List α) : List (List α) :=
  match l with
  | [] => []
  | x :: xs =>
    if c = 0 then []
    else (x :: xs).take c :: chunksOf c ((x :: xs).drop c)
termination_by l.length
decreasing_by
  simp only [List.length_drop, List.length_cons]
  omega

/-- The expected chunk sizes for `n` records with chunk size `c`. -/
def chunkSizes (c n : Nat) : List Nat :=
  if n = 0 then []
  else if c = 0 then []
  else if n ≤ c then [n]
  else c :: chunkSizes c (n - c)
termination_by n
decreasing_by
  omega

theorem chunksOf_nil {α : Type} (c : Nat) : chunksOf c ([] : List α) = [] := by
  rw [chunksOf]

theorem chunksOf_cons {α : Type} {c : Nat} {l : List α}
    (hl : l ≠ []) (hc : c ≠ 0) :
    chunksOf c l = l.take c :: chunksOf c (l.drop c) := by
  cases l with
  | nil => exact absurd rfl hl
  | cons x xs =>
    rw [chunksOf]
    simp [hc]

theorem chunksOf_map_length_aux {α : Type} (c : Nat) (hc : 0 < c) :
    ∀ (n : Nat) (l : List α), l.length = n →
      (chunksOf c l).map List.length = chunkSizes c l.length := by
  intro n
  induction n using Nat.strong_induction_on with
  | _ n ih =>
    intro l hn
    by_cases hl : l = []
    · subst hl
      simp [chunksOf_nil, chunkSizes]
    · rw [chunksOf_cons hl (by omega)]
      have hpos : 0 < l.length := List.length_pos.mpr hl
      by_cases hle : l.length ≤ c
      · have htake : l.take c = l := List.take_of_length_le hle
        have hdrop : l.drop c = [] := List.drop_eq_nil_of_le hle
        rw [htake, hdrop, chunksOf_nil]
        rw [chunkSizes]
        simp [hle, Nat.ne_of_gt hpos, Nat.ne_of_gt hc]
      · have hlen : (l.drop c).length = l.length - c := List.length_drop c l
        have hrec := ih (l.length - c) (by omega) (l.drop c) (by omega)
        rw [chunkSizes]
        simp only [Nat.ne_of_gt hpos, Nat.ne_of_gt hc, hle, if_false,
          ite_false, List.map_cons]
        rw [List.length_take, min_eq_left (by omega), hrec, hlen]

theorem chunksOf_map_length {α : Type} (c : Nat) (hc : 0 < c) (l : List α) :
    (chunksOf c l).map List.length = chunkSizes c l.length :=
  chunksOf_map_length_aux c hc l.length l rfl

theorem chunksOf_flatten_aux {α : Type} (c : Nat) (hc : 0 < c) :
    ∀ (n : Nat) (l : List α), l.length = n → (chunksOf c l).flatten = l := by
  intro n
  induction n using Nat.strong_induction_on with
  | _ n ih =>
    intro l hn
    by_cases hl : l = []
    · subst hl; simp [chunksOf_nil]
    · rw [chunksOf_cons hl (by omega)]
      have hpos : 0 < l.length := List.length_pos.mpr hl
      have hlen : (l.drop c).length = l.length - c := List.length_drop c l
      have hrec := ih (l.length - c) (by omega) (l.drop c) (by omega)
      subst hn
      simp [hrec]

theorem chunksOf_flatten {α : Type} (c : Nat) (hc : 0 < c) (l : List α) :
    (chunksOf c l).flatten = l :=
  chunksOf_flatten_aux c hc l.length l rfl

theorem chunkSizes_canonical (c : Nat) (hc : 0 < c) :
    ∀ n, chunkSizes c n =
      List.replicate (n / c) c ++ (if n % c = 0 then [] else [n % c]) := by
  intro n
  induction n using Nat.strong_induction_on with
  | _ n ih =>
    by_cases hn : n = 0
    · subst hn; simp [chunkSizes]
    · rw [chunkSizes]
      by_cases hle : n ≤ c
      · by_cases heq : n = c
        · subst heq
          simp [hn, Nat.ne_of_gt hc, Nat.div_self hc, Nat.mod_self]
        · have hlt : n < c := by omega
          simp [hn, Nat.ne_of_gt hc, hle, Nat.div_eq_of_lt hlt,
            Nat.mod_eq_of_lt hlt]
      · have hgt : c < n := by omega
        have hrec := ih (n - c) (by omega)
        simp only [hn, Nat.ne_of_gt hc, hle, if_false, ite_false]
        rw [Nat.div_eq_sub_div hc (le_of_lt hgt),
          Nat.mod_eq_sub_mod (le_of_lt hgt), hrec, List.replicate_succ]
        rfl

theorem chunksOf_length {α : Type} (c : Nat) (hc : 0 < c) (l : List α) :
    (chunksOf c l).length = (l.length + c - 1) / c := by
  have h1 : (chunksOf c l).length = (chunkSizes c l.length).length := by
    rw [← chunksOf_map_length c hc l, List.length_map]
  rw [h1, chunkSizes_canonical c hc]
  generalize l.length = n
  have hdm := Nat.div_add_mod n c
  by_cases hr : n % c = 0
  · rw [if_pos hr]
    simp only [List.append_nil, List.length_replicate]
    have he := Nat.add_mul_div_left (c - 1) (n / c) hc
    have h2 : (c - 1) / c = 0 := Nat.div_eq_of_lt (by omega)
    have h3 : n + c - 1 = c - 1 + c * (n / c) := by omega
    rw [h3, he, h2]
    omega
  · rw [if_neg hr]
    simp only [List.length_append, List.length_replicate,
      List.length_singleton]
    have he := Nat.add_mul_div_left (n % c - 1) (n / c + 1) hc
    have h2 : (n % c - 1) / c = 0 :=
      Nat.div_eq_of_lt (by have := Nat.mod_lt n hc; omega)
    have hB : c * (n / c + 1) = c * (n / c) + c := Nat.mul_succ c (n / c)
    have h3 : n + c - 1 = n % c - 1 + c * (n / c + 1) := by omega
    rw [h3, he, h2]
    omega

/-- Metadata stored alongside each vector (vectorDB.js lines 188-194). -/
structure ChromaMeta where
  id : String
  name : String
  category : String
  tags : String
  language : String
deriving DecidableEq

/-- One document of a `collection.add` payload (vectorDB.js lines 199-204). -/
structure ChromaItem where
  document : String
  metadata : ChromaMeta
  id : String
  embedding : List ℚ
deriving DecidableEq

/-- One entry of the module-level `inMemoryVectors` array (vectorDB.js
lines 213-223). -/
structure VecEntry where
  id : String
  text : String
  metadata : ChromaMeta
deriving DecidableEq

/-- One ranked result of `searchSimilarSchemes` (vectorDB.js lines
298-304 and 330-339). The score is a real number because the in-process
backend computes a cosine similarity. -/
structure SearchResult where
  id : String
  name : String
  category : String
  score : ℝ
  metadata : ChromaMeta

/-- One synthetic training example (ragTrainer.js lines 223-231). -/
structure TrainingExample where
  query : String
  language : String
  expectedScheme : String
  expectedResponse : String
  difficulty : String
  category : String
deriving DecidableEq

/-- The validation metrics of one run (ragTrainer.js lines 525-530). -/
structure ValidationResults where
  totalTestQueries : Nat
  successfulRetrievals : Nat
  averageRelevanceScore : ℝ
  responseTime : Nat

/-- The persisted `training_results.json` snapshot (ragTrainer.js lines
562-567). -/
structure TrainingResults where
  totalSchemes : Nat
  trainingAccuracy : ℚ
  lastTrainingDate : String
  modelVersion : String
  validationResults : ValidationResults

/-- The persisted `scraping_metadata.json` document (dataScraper.js lines
394-399). -/
structure ScrapeMetadata where
  totalSchemes : Nat
  lastUpdated : String
  sources : List String
  categories : List String

/-- The mutable state of the process: the module-level in-memory vector
arrays of vectorDB.js and the files written under `backend/data`, plus a
log of the `collection.add` payloads issued to ChromaDB. -/
structure St where
  inMemoryVectors : List VecEntry
  inMemoryEmbeddings : List (List ℚ)
  chromaAddLog : List (List ChromaItem)
  schemesFile : Option (List CleanedScheme)
  metadataFile : Option ScrapeMetadata
  resultsFile : Option TrainingResults
  examplesFile : Option (List TrainingExample)

/-- The initial process state: empty arrays, no files. -/
def emptySt : St :=
  { inMemoryVectors := [], inMemoryEmbeddings := [], chromaAddLog := []
    schemesFile := none, metadataFile := none, resultsFile := none
    examplesFile := none }

/-- The environment: outcomes of every external interaction. `llmEmbed`
is the local embedding model, `chromaAdd` gives the outcome of the `i`-th
`collection.add` call, `chromaQuery` the (already unwrapped) first rows of
`collection.query`, the three `...Data` fields are the records delivered
by the per-source fetchers after their internal fallbacks, `fsWriteOk`
tells whether file writes succeed, `now` is `new Date().toISOString()`
and `freshId` the generated fallback ids. -/
structure Env where
  llmEmbed : String → Except JsError (List ℚ)
  chromaPresent : Bool
  chromaAdd : Nat → Except JsError Unit
  chromaQuery : String → Nat → Except JsError (List ChromaMeta × List ℚ)
  myschemeData : List RawScheme
  nspData : List RawScheme
  pmkisanData : List RawScheme
  useLocalData : Bool
  localDataset : Except JsError (List CleanedScheme)
  fsWriteOk : Bool
  batchSize : Nat
  now : String
  freshId : Nat → String
  elapsedMs : Nat

/-- The effect monad of the embedding: an environment-and-state-passing
function that can raise a JavaScript exception. State changes made before
a throw persist, exactly as in the source process. -/
def M (α : Type) : Type := Env → St → Except JsError α × St

instance : Monad M where
  pure a := fun _ s => (.ok a, s)
  bind x f := fun env s =>
    match x env s with
    | (.ok a, s1) => f a env s1
    | (.error e, s1) => (.error e, s1)

/-- `throw` in `M`. -/
def mthrow {α : Type} (e : JsError) : M α := fun _ s => (.error e, s)

/-- A JavaScript `try { x } catch (e) { h e }`. -/
def jsTry {α : Type} (x : M α) (h : JsError → M α) : M α := fun env s =>
  match x env s with
  | (.ok a, s1) => (.ok a, s1)
  | (.error e, s1) => h e env s1

/-- Read the environment. -/
def readEnv : M Env := fun env s => (.ok env, s)

/-- Update the state. -/
def modifySt (f : St → St) : M Unit := fun _ s => (.ok (), f s)

/-- `mapM` over a list in `M`, defined structurally so that it unfolds. -/
def mmapM {α β : Type} (f : α → M β) : List α → M (List β)
  | [] => pure []
  | x :: xs => do
    let y ← f x
    let ys ← mmapM f xs
    pure (y :: ys)

/-- `forM` over a list in `M`, defined structurally so that it unfolds. -/
def mforM {α : Type} (f : α → M Unit) : List α → M Unit
  | [] => pure ()
  | x :: xs => do
    f x
    mforM f xs

theorem run_bind {α β : Type} (x : M α) (f : α → M β) (env : Env) (s : St) :
    (x >>= f) env s =
      match x env s with
      | (.ok a, s1) => f a env s1
      | (.error e, s1) => (.error e, s1) := rfl

theorem run_pure {α : Type} (a : α) (env : Env) (s : St) :
    (pure a : M α) env s = (.ok a, s) := rfl

theorem jsTry_rethrow {α : Type} (x : M α) : jsTry x mthrow = x := by
  funext env s
  unfold jsTry mthrow
  rcases x env s with ⟨r, s1⟩
  cases r <;> rfl

/-- JavaScript `ToInt32` as applied by the bitwise operators in the hash. -/
def toInt32 (x : Int) : Int := (x + 2 ^ 31) % 2 ^ 32 - 2 ^ 31

/-- The per-word hash of `generateSimpleEmbedding` (vectorDB.js lines
109-112): `a = ((a << 5) - a) + charCode; a = a & a` folded over the
UTF-16 code units (surrogate pairs are approximated by the code point). -/
def jsStringHash (w : String) : Int :=
  w.data.foldl (fun a ch => toInt32 (toInt32 (a * 32) - a + (ch.toNat : Int))) 0

/-- Increment slot `i` of the 1536-dimensional accumulator. -/
def bumpAt (l : List ℚ) (i : Nat) : List ℚ := l.set i (l.getD i 0 + 1)

/-- `generateSimpleEmbedding` (vectorDB.js lines 103-118): deterministic
hash-based fallback embedding. `split(/\\s+/)` is modelled as the non-empty
whitespace-separated words (the JavaScript regex additionally yields an
empty token for leading whitespace, which would only bump bucket 0). -/
def generateSimpleEmbedding (text : String) : List ℚ :=
  let words := ((jsToLower text).split Char.isWhitespace).filter (· ≠ "")
  words.foldl (fun emb w => bumpAt emb ((jsStringHash w).natAbs % 1536))
    (List.replicate 1536 0)

/-- `generateEmbedding` (vectorDB.js lines 90-98): ask the configured
local model; on failure fall back to the hash embedding. Never throws. -/
def generateEmbedding (text : String) : M (List ℚ) := fun env s =>
  match env.llmEmbed text with
  | .ok v => (.ok v, s)
  | .error _ => (.ok (generateSimpleEmbedding text), s)

/-- The embedding that `generateEmbedding` resolves to in environment
`env` (pure view of the oracle plus its fallback). -/
def embedOf (env : Env) (text : String) : List ℚ :=
  match env.llmEmbed text with
  | .ok v => v
  | .error _ => generateSimpleEmbedding text

theorem generateEmbedding_run (text : String) (env : Env) (s : St) :
    generateEmbedding text env s = (.ok (embedOf env text), s) := by
  unfold generateEmbedding embedOf
  cases env.llmEmbed text <;> rfl

/-- `', '.join` of a list of strings. -/
def joinComma (l : List String) : String := String.intercalate ", " l

/-- `createSchemeText` (vectorDB.js lines 268-281): the template literal
after its outer `trim()` (inner newlines and indentation survive). -/
def createSchemeText (s : CleanedScheme) : String :=
  "Scheme Name: " ++ s.name ++
  "\n    Category: " ++ s.category ++
  "\n    Objective: " ++ s.objective ++
  "\n    Eligibility: " ++ joinComma s.eligibility ++
  "\n    Documents Required: " ++ joinComma s.documentsRequired ++
  "\n    Application Procedure: " ++ joinComma s.applicationProcedure ++
  "\n    Benefits: " ++ s.benefits ++
  "\n    Contact Info: " ++ s.contactInfo ++
  "\n    Website: " ++ s.website ++
  "\n    Tags: " ++ joinComma s.tags

/-- The metadata record built for a scheme (vectorDB.js lines 188-194). -/
def schemeMeta (s : CleanedScheme) : ChromaMeta :=
  { id := s.id, name := s.name, category := s.category
    tags := joinComma s.tags, language := "en" }

/-- The document built for one scheme of a `collection.add` payload. -/
def mkChromaItem (sch : CleanedScheme) (emb : List ℚ) : ChromaItem :=
  { document := createSchemeText sch, metadata := schemeMeta sch
    id := sch.id, embedding := emb }

/-- Issue one `collection.add` call: the payload is logged as issued and
the outcome is the oracle outcome for this call index. -/
def chromaAddCall (items : List ChromaItem) : M Unit := fun env s =>
  let idx := s.chromaAddLog.length
  let s1 := { s with chromaAddLog := s.chromaAddLog ++ [items] }
  match env.chromaAdd idx with
  | .ok _ => (.ok (), s1)
  | .error e => (.error e, s1)

/-- Push one entry onto the two parallel in-memory arrays (vectorDB.js
lines 213-224); they always grow in lockstep. -/
def pushInMemory (entry : VecEntry) (emb : List ℚ) : M Unit :=
  modifySt fun s =>
    { s with inMemoryVectors := s.inMemoryVectors ++ [entry]
             inMemoryEmbeddings := s.inMemoryEmbeddings ++ [emb] }

/-- Build the items of one batch: embed each scheme text in order. -/
def addChunkItems (batch : List CleanedScheme) : M (List ChromaItem) :=
  mmapM (fun sch => do
    let emb ← generateEmbedding (createSchemeText sch)
    pure (mkChromaItem sch emb)) batch

/-- The pure value of one batch payload in environment `env`. -/
def chunkItems (env : Env) (batch : List CleanedScheme) : List ChromaItem :=
  batch.map (fun sch => mkChromaItem sch (embedOf env (createSchemeText sch)))

/-- The ChromaDB-path batch loop of `addSchemesToVectorDB` (vectorDB.js
lines 176-207), on the remaining list: embed and add one
`batchSize`-record slice, then continue with the rest. As with
`chunksOf`, the (never exercised) zero chunk size is modelled as
stopping. -/
def addSchemesLoop (c : Nat) (l : List CleanedScheme) : M Unit :=
  match l with
  | [] => pure ()
  | x :: xs =>
    if c = 0 then pure ()
    else do
      let items ← addChunkItems ((x :: xs).take c)
      chromaAddCall items
      addSchemesLoop c ((x :: xs).drop c)
termination_by l.length
decreasing_by
  simp only [List.length_drop, List.length_cons]
  omega

/-- `addSchemesToVectorDB` (vectorDB.js lines 168-232): batch ingestion.
Empty input returns immediately; on the ChromaDB path the batch loop runs
and any chunk failure is logged and rethrown (the `catch` re-throws); on
the in-memory path every scheme is pushed. -/
def addSchemesToVectorDB (schemes : List CleanedScheme) (batchSize : Nat) :
    M Unit :=
  jsTry
    (do
      if schemes.isEmpty then pure ()
      else do
        let env ← readEnv
        if env.chromaPresent then addSchemesLoop batchSize schemes
        else
          mforM (fun sch => do
            let text := createSchemeText sch
            let emb ← generateEmbedding text
            pushInMemory { id := sch.id, text := text, metadata := schemeMeta sch } emb)
            schemes)
    mthrow

/-- `addSchemeToVectorDB` (vectorDB.js lines 373-410): add a single
scheme. The catch only logs, so failures are swallowed; on the in-memory
path the entry is appended without any lookup of an existing id. -/
def addSchemeToVectorDB (sch : CleanedScheme) : M Unit :=
  jsTry
    (do
      let text := createSchemeText sch
      let emb ← generateEmbedding text
      let env ← readEnv
      if env.chromaPresent then chromaAddCall [mkChromaItem sch emb]
      else pushInMemory { id := sch.id, text := text, metadata := schemeMeta sch } emb)
    (fun _ => pure ())

/-- The running dot product of `cosineSimilarity` (vectorDB.js lines
350-358). -/
def dotList (a b : List ℝ) : ℝ := (List.zipWith (fun x y => x * y) a b).sum

/-- `Math.sqrt(norm)` of a vector with itself (vectorDB.js lines 360-361). -/
noncomputable def l2norm (a : List ℝ) : ℝ := Real.sqrt (dotList a a)

open Classical

/-- `cosineSimilarity` (vectorDB.js lines 345-368): throws (here `none`)
on a length mismatch, returns `0` when either norm is zero, otherwise
`dot / (normA * normB)`. Classical choice only supplies decidability of
the real-number comparisons. -/
noncomputable def cosineSimilarity (vecA vecB : List ℝ) : Option ℝ :=
  if vecA.length ≠ vecB.length then none
  else if l2norm vecA = 0 ∨ l2norm vecB = 0 then some 0
  else some (dotList vecA vecB / (l2norm vecA * l2norm vecB))

/-- One `{index, similarity}` entry (vectorDB.js lines 319-325). -/
structure SimEntry where
  index : Nat
  similarity : ℝ

/-- A rational embedding viewed as a real vector. -/
def castEmb (e : List ℚ) : List ℝ := e.map (fun q => (q : ℝ))

/-- A placeholder entry for the (never reached) out-of-range array access:
the two in-memory arrays always have equal length. -/
def dummyVecEntry : VecEntry :=
  { id := "", text := ""
    metadata := { id := "", name := "", category := "", tags := "", language := "" } }

/-- Structural `mapM` over `Option`: `none` as soon as one element maps
to `none` (the first thrown similarity aborts the JavaScript `map`). -/
def omapM {α β : Type} (f : α → Option β) : List α → Option (List β)
  | [] => some []
  | x :: xs =>
    match f x, omapM f xs with
    | some y, some ys => some (y :: ys)
    | _, _ => none

/-- `searchInMemoryVectors` (vectorDB.js lines 318-340): score every
stored embedding against the query, sort descending (the JavaScript
comparator `b.similarity - a.similarity`), take the top `limit` and map
back to the stored metadata. A similarity computation that throws makes
the whole call throw. -/
noncomputable def searchInMemoryVectors (queryEmbedding : List ℝ)
    (limit : Nat) : M (List SearchResult) := fun _ s =>
  match omapM
      (fun e => cosineSimilarity queryEmbedding (castEmb e))
      s.inMemoryEmbeddings with
  | none => (.error "Vectors must have the same length", s)
  | some sims =>
    let entries := sims.enum.map fun p => SimEntry.mk p.1 p.2
    let sorted := entries.mergeSort fun a b =>
      decide (b.similarity ≤ a.similarity)
    let top := sorted.take limit
    (.ok (top.map fun it =>
      let v := s.inMemoryVectors.getD it.index dummyVecEntry
      { id := v.id, name := v.metadata.name, category := v.metadata.category
        score := it.similarity, metadata := v.metadata }), s)

/-- The ChromaDB rows mapped to results, with `1 - distance` as score
(vectorDB.js lines 298-304). A missing distance entry would be NaN in
JavaScript; ChromaDB returns parallel rows, so the default is never used. -/
def chromaRows (metas : List ChromaMeta) (dists : List ℚ) :
    List SearchResult :=
  metas.enum.map fun p =>
    { id := p.2.id, name := p.2.name, category := p.2.category
      score := ((1 - dists.getD p.1 1 : ℚ) : ℝ), metadata := p.2 }

/-- The `try` body of `searchSimilarSchemes` (vectorDB.js lines 287-308):
embed the query, then delegate to ChromaDB or the in-memory scan. -/
noncomputable def searchAttempt (query : String) (limit : Nat) :
    M (List SearchResult) := do
  let qe ← generateEmbedding query
  let env ← readEnv
  if env.chromaPresent then
    match env.chromaQuery query limit with
    | .error e => mthrow e
    | .ok (metas, dists) => pure (chromaRows metas dists)
  else
    searchInMemoryVectors (castEmb qe) limit

/-- `searchSimilarSchemes` (vectorDB.js lines 286-313): the body above
with every failure caught and turned into an empty result list. -/
noncomputable def searchSimilarSchemes (query : String) (limit : Nat) :
    M (List SearchResult) :=
  jsTry (searchAttempt query limit) (fun _ => pure [])

theorem dotList_nil_right (a : List ℝ) : dotList a [] = 0 := by
  unfold dotList
  cases a <;> simp

theorem dotList_cons (x y : ℝ) (xs ys : List ℝ) :
    dotList (x :: xs) (y :: ys) = x * y + dotList xs ys := by
  unfold dotList
  simp

theorem dotList_self_nonneg (a : List ℝ) : 0 ≤ dotList a a := by
  induction a with
  | nil => simp [dotList]
  | cons x xs ih =>
    rw [dotList_cons]
    have := mul_self_nonneg x
    linarith

theorem dotList_self_eq_zero_iff (a : List ℝ) :
    dotList a a = 0 ↔ ∀ x ∈ a, x = 0 := by
  induction a with
  | nil => simp [dotList]
  | cons x xs ih =>
    rw [dotList_cons]
    constructor
    · intro h
      have h1 : 0 ≤ x * x := mul_self_nonneg x
      have h2 : 0 ≤ dotList xs xs := dotList_self_nonneg xs
      have hx : x * x = 0 := by linarith
      have hxs : dotList xs xs = 0 := by linarith
      have hx0 : x = 0 := by
        by_contra hne
        exact hne (by nlinarith)
      intro y hy
      rcases List.mem_cons.mp hy with rfl | hy'
      · exact hx0
      · exact ih.mp hxs y hy'
    · intro h
      have hx : x = 0 := h x (List.mem_cons_self x xs)
      have hxs : dotList xs xs = 0 :=
        ih.mpr fun y hy => h y (List.mem_cons_of_mem _ hy)
      rw [hx, hxs]
      ring

theorem l2norm_nonneg (a : List ℝ) : 0 ≤ l2norm a := Real.sqrt_nonneg _

theorem l2norm_eq_zero_iff (a : List ℝ) : l2norm a = 0 ↔ ∀ x ∈ a, x = 0 := by
  unfold l2norm
  rw [Real.sqrt_eq_zero']
  constructor
  · intro h
    exact (dotList_self_eq_zero_iff a).mp
      (le_antisymm h (dotList_self_nonneg a))
  · intro h
    rw [(dotList_self_eq_zero_iff a).mpr h]

theorem sq_l2norm (a : List ℝ) : l2norm a * l2norm a = dotList a a := by
  unfold l2norm
  exact Real.mul_self_sqrt (dotList_self_nonneg a)

theorem dotList_eq_sum :
    ∀ (a b : List ℝ), a.length = b.length →
      dotList a b = ∑ i ∈ Finset.range a.length, a.getD i 0 * b.getD i 0 := by
  intro a
  induction a with
  | nil => intro b h; simp [dotList]
  | cons x xs ih =>
    intro b h
    cases b with
    | nil => simp at h
    | cons y ys =>
      simp only [List.length_cons] at h ⊢
      rw [dotList_cons, Finset.sum_range_succ']
      simp only [List.getD_cons_succ, List.getD_cons_zero]
      rw [ih ys (by omega)]
      ring

theorem abs_dotList_le (a b : List ℝ) (h : a.length = b.length) :
    |dotList a b| ≤ l2norm a * l2norm b := by
  have hsum := dotList_eq_sum a b h
  have ha : dotList a a = ∑ i ∈ Finset.range a.length, a.getD i 0 ^ 2 := by
    rw [dotList_eq_sum a a rfl]
    exact Finset.sum_congr rfl fun i _ => (pow_two (a.getD i 0)).symm
  have hb : dotList b b = ∑ i ∈ Finset.range a.length, b.getD i 0 ^ 2 := by
    rw [dotList_eq_sum b b rfl, h]
    exact Finset.sum_congr rfl fun i _ => (pow_two (b.getD i 0)).symm
  have hna : l2norm a =
      Real.sqrt (∑ i ∈ Finset.range a.length, a.getD i 0 ^ 2) := by
    rw [l2norm, ha]
  have hnb : l2norm b =
      Real.sqrt (∑ i ∈ Finset.range a.length, b.getD i 0 ^ 2) := by
    rw [l2norm, hb]
  have upper := Real.sum_mul_le_sqrt_mul_sqrt (Finset.range a.length)
    (fun i => a.getD i 0) (fun i => b.getD i 0)
  have lower := Real.sum_mul_le_sqrt_mul_sqrt (Finset.range a.length)
    (fun i => -a.getD i 0) (fun i => b.getD i 0)
  simp only [neg_mul, Finset.sum_neg_distrib, neg_sq] at lower
  rw [hsum, hna, hnb, abs_le]
  exact ⟨by linarith, upper⟩

/-- Claim C6: for equal-length real vectors, `cosineSimilarity` never
throws and never yields NaN: it returns `dot(a,b) / (norm a * norm b)`
when both norms are non-zero and `0` when either norm is zero; the result
always lies in `[-1, 1]`, the norm is zero exactly on the zero vector, and
the self-similarity of a non-zero vector is `1`. -/
theorem cosineSimilarity_spec (a b : List ℝ) (h : a.length = b.length) :
    (∃ r, cosineSimilarity a b = some r ∧ -1 ≤ r ∧ r ≤ 1
      ∧ ((l2norm a = 0 ∨ l2norm b = 0) → r = 0)
      ∧ (l2norm a ≠ 0 → l2norm b ≠ 0 →
          r = dotList a b / (l2norm a * l2norm b)))
    ∧ (l2norm a = 0 ↔ ∀ x ∈ a, x = 0)
    ∧ (l2norm a ≠ 0 → cosineSimilarity a a = some 1) := by
  refine ⟨?_, l2norm_eq_zero_iff a, ?_⟩
  · unfold cosineSimilarity
    rw [if_neg (by simp [h])]
    by_cases hz : l2norm a = 0 ∨ l2norm b = 0
    · rw [if_pos hz]
      exact ⟨0, rfl, by norm_num, by norm_num, fun _ => rfl,
        fun hna hnb => absurd hz (by simp [hna, hnb])⟩
    · rw [if_neg hz]
      push_neg at hz
      refine ⟨_, rfl, ?_, ?_,
        fun hcontra => absurd hcontra (by simp [hz.1, hz.2]),
        fun _ _ => rfl⟩
      all_goals
        have hna0 := l2norm_nonneg a
        have hnb0 := l2norm_nonneg b
        have hpa : 0 < l2norm a := lt_of_le_of_ne hna0 (Ne.symm hz.1)
        have hpb : 0 < l2norm b := lt_of_le_of_ne hnb0 (Ne.symm hz.2)
        have hpos : 0 < l2norm a * l2norm b := mul_pos hpa hpb
        have habs := abs_dotList_le a b h
        have h1 : |dotList a b / (l2norm a * l2norm b)| ≤ 1 := by
          rw [abs_div, abs_of_pos hpos, div_le_one hpos]
          exact habs
        have h2 := abs_le.mp h1
      · exact h2.1
      · exact h2.2
  · intro hna
    unfold cosineSimilarity
    rw [if_neg (by simp)]
    rw [if_neg (by simp [hna])]
    have hd : dotList a a = l2norm a * l2norm a := (sq_l2norm a).symm
    rw [hd, div_self (mul_ne_zero hna hna)]

/-- Witness for claim C6 at the concrete vectors `[1, 0]` and `[0, 1]`. -/
theorem cosineSimilarity_spec_witness :
    ([(1 : ℝ), 0]).length = ([(0 : ℝ), 1]).length
    ∧ (∃ r, cosineSimilarity [(1 : ℝ), 0] [(0 : ℝ), 1] = some r
        ∧ -1 ≤ r ∧ r ≤ 1
        ∧ ((l2norm [(1 : ℝ), 0] = 0 ∨ l2norm [(0 : ℝ), 1] = 0) → r = 0)
        ∧ (l2norm [(1 : ℝ), 0] ≠ 0 → l2norm [(0 : ℝ), 1] ≠ 0 →
            r = dotList [(1 : ℝ), 0] [(0 : ℝ), 1] /
              (l2norm [(1 : ℝ), 0] * l2norm [(0 : ℝ), 1]))) :=
  ⟨rfl, (cosineSimilarity_spec [(1 : ℝ), 0] [(0 : ℝ), 1] rfl).1⟩

/-- A baseline concrete environment for witnesses: the embedding model
returns `[1]`, ChromaDB is absent, all oracles succeed, no local data. -/
def baseEnv : Env :=
  { llmEmbed := fun _ => .ok [1], chromaPresent := false
    chromaAdd := fun _ => .ok (), chromaQuery := fun _ _ => .ok ([], [])
    myschemeData := [], nspData := [], pmkisanData := []
    useLocalData := false, localDataset := .ok [], fsWriteOk := true
    batchSize := 500, now := "2024-01-01T00:00:00.000Z"
    freshId := fun n => toString n, elapsedMs := 0 }

theorem searchAttempt_run (q : String) (k : Nat) (env : Env) (s : St) :
    searchAttempt q k env s =
      if env.chromaPresent then
        match env.chromaQuery q k with
        | .error e => (.error e, s)
        | .ok (metas, dists) => (.ok (chromaRows metas dists), s)
      else searchInMemoryVectors (castEmb (embedOf env q)) k env s := by
  unfold searchAttempt
  simp only [run_bind, generateEmbedding_run, readEnv]
  cases hc : env.chromaPresent with
  | false => simp
  | true =>
    simp only [if_pos rfl, if_true]
    rcases hq : env.chromaQuery q k with e | ⟨metas, dists⟩
    · rfl
    · rfl

theorem searchInMemoryVectors_empty_run (qe : List ℝ) (k : Nat) (env : Env)
    (s : St) (h : s.inMemoryEmbeddings = []) :
    searchInMemoryVectors qe k env s = (.ok [], s) := by
  unfold searchInMemoryVectors
  rw [h]
  simp [omapM, List.mergeSort_nil]

/-- Claim C1: `searchSimilarSchemes` never propagates an exception: its
result is always `ok`; when ChromaDB is in use and the backend query
fails, or returns no rows, the result is the empty list with the state
unchanged; when the in-process store is in use and is empty, or the
in-process scan itself throws, the result is again the empty list.
(Embedding-generation failure cannot escape either: `generateEmbedding`
falls back internally, which the first conjunct covers.) -/
theorem searchSimilarSchemes_spec (env : Env) (q : String) (k : Nat) (s : St) :
    (∃ l s1, searchSimilarSchemes q k env s = (.ok l, s1))
    ∧ (∀ e, env.chromaPresent = true → env.chromaQuery q k = .error e →
        searchSimilarSchemes q k env s = (.ok [], s))
    ∧ (env.chromaPresent = true → env.chromaQuery q k = .ok ([], []) →
        searchSimilarSchemes q k env s = (.ok [], s))
    ∧ (env.chromaPresent = false → s.inMemoryEmbeddings = [] →
        searchSimilarSchemes q k env s = (.ok [], s))
    ∧ (∀ e, env.chromaPresent = false →
        searchInMemoryVectors (castEmb (embedOf env q)) k env s = (.error e, s) →
        searchSimilarSchemes q k env s = (.ok [], s)) := by
  refine ⟨?_, ?_, ?_, ?_, ?_⟩
  · unfold searchSimilarSchemes jsTry
    rcases hb : searchAttempt q k env s with ⟨r, s1⟩
    cases r with
    | ok a => exact ⟨a, s1, rfl⟩
    | error e => exact ⟨[], s1, rfl⟩
  · intro e hc hq
    unfold searchSimilarSchemes jsTry
    rw [searchAttempt_run, hc, if_pos rfl, hq]
    rfl
  · intro hc hq
    unfold searchSimilarSchemes jsTry
    rw [searchAttempt_run, hc, if_pos rfl, hq]
    rfl
  · intro hc hemp
    unfold searchSimilarSchemes jsTry
    rw [searchAttempt_run, hc, if_neg (by simp),
      searchInMemoryVectors_empty_run _ _ _ _ hemp]
  · intro e hc hfail
    unfold searchSimilarSchemes jsTry
    rw [searchAttempt_run, hc, if_neg (by simp), hfail]
    rfl

/-- A concrete environment in which ChromaDB is selected but its query
call fails. -/
def chromaDownEnv : Env :=
  { baseEnv with
    chromaPresent := true
    chromaQuery := fun _ _ => .error "backend down" }

/-- Witness for claim C1: with ChromaDB present and the backend query
failing, the search returns the empty list rather than an error. -/
theorem searchSimilarSchemes_spec_witness :
    chromaDownEnv.chromaPresent = true
    ∧ chromaDownEnv.chromaQuery "farmer" 5 = .error "backend down"
    ∧ searchSimilarSchemes "farmer" 5 chromaDownEnv emptySt
        = (.ok [], emptySt) :=
  ⟨rfl, rfl,
    (searchSimilarSchemes_spec chromaDownEnv "farmer" 5 emptySt).2.1
      "backend down" rfl rfl⟩

theorem addSchemesLoop_nil (c : Nat) : addSchemesLoop c [] = pure () := by
  rw [addSchemesLoop]

theorem addSchemesLoop_cons (c : Nat) (hc : c ≠ 0) (x : CleanedScheme)
    (xs : List CleanedScheme) :
    addSchemesLoop c (x :: xs) =
      addChunkItems ((x :: xs).take c) >>= fun items =>
        chromaAddCall items >>= fun _ =>
          addSchemesLoop c ((x :: xs).drop c) := by
  rw [addSchemesLoop]
  simp [hc]

theorem addChunkItems_run (batch : List CleanedScheme) :
    ∀ (env : Env) (s : St),
      addChunkItems batch env s = (.ok (chunkItems env batch), s) := by
  induction batch with
  | nil => intro env s; rfl
  | cons x xs ih =>
    intro env s
    unfold addChunkItems at ih ⊢
    simp only [mmapM, run_bind, generateEmbedding_run, run_pure, ih]
    simp [chunkItems]

theorem addSchemesLoop_run_ok (c : Nat) (hc : 0 < c) :
    ∀ (n : Nat) (l : List CleanedScheme), l.length = n →
      ∀ (env : Env) (s : St), (∀ i, env.chromaAdd i = .ok ()) →
      addSchemesLoop c l env s =
        (.ok (), { s with chromaAddLog :=
            s.chromaAddLog ++ (chunksOf c l).map (chunkItems env) }) := by
  intro n
  induction n using Nat.strong_induction_on with
  | _ n ih =>
    intro l hn env s hok
    cases l with
    | nil =>
      rw [addSchemesLoop_nil]
      simp [chunksOf_nil, run_pure]
    | cons x xs =>
      rw [addSchemesLoop_cons c (by omega) x xs]
      simp only [run_bind, addChunkItems_run, chromaAddCall, hok]
      rw [ih ((x :: xs).length - c)
        (by simp only [List.length_cons] at hn ⊢; omega)
        ((x :: xs).drop c) (List.length_drop c (x :: xs)) env _ hok]
      rw [@chunksOf_cons CleanedScheme c (x :: xs) (by simp) (by omega)]
      simp

/-- Claim C9: on the external-backend path with a positive chunk size `c`
and all add calls succeeding, `addSchemesToVectorDB` issues exactly the
`collection.add` calls described by `chunksOf`: their sizes are `c` for
every full chunk followed by `n mod c` (when non-zero) for the last, the
number of calls is `ceil(n / c)`, every record is covered exactly once,
and in particular 1200 records with chunk size 500 give batches of sizes
500, 500 and 200. -/
theorem addSchemesToVectorDB_chunking (env : Env) (s : St)
    (schemes : List CleanedScheme) (c : Nat) (hc : 0 < c)
    (hchroma : env.chromaPresent = true)
    (hok : ∀ i, env.chromaAdd i = .ok ()) :
    addSchemesToVectorDB schemes c env s =
      (.ok (), { s with chromaAddLog :=
          s.chromaAddLog ++ (chunksOf c schemes).map (chunkItems env) })
    ∧ (chunksOf c schemes).map List.length =
        List.replicate (schemes.length / c) c ++
          (if schemes.length % c = 0 then [] else [schemes.length % c])
    ∧ (chunksOf c schemes).length = (schemes.length + c - 1) / c
    ∧ (chunksOf c schemes).flatten = schemes
    ∧ chunkSizes 500 1200 = [500, 500, 200] := by
  refine ⟨?_, ?_, chunksOf_length c hc schemes,
    chunksOf_flatten c hc schemes, ?_⟩
  · unfold addSchemesToVectorDB
    rw [jsTry_rethrow]
    cases schemes with
    | nil => simp [chunksOf_nil, run_pure]
    | cons x xs =>
      rw [if_neg (by simp)]
      simp only [run_bind, readEnv, hchroma, if_true]
      exact addSchemesLoop_run_ok c hc (x :: xs).length (x :: xs) rfl env s hok
  · rw [chunksOf_map_length c hc, chunkSizes_canonical c hc]
  · rw [chunkSizes_canonical 500 (by norm_num)]
    have hdiv : (1200 : Nat) / 500 = 2 := by norm_num
    have hmod : (1200 : Nat) % 500 = 200 := by norm_num
    rw [hdiv, hmod, if_neg (by norm_num)]
    rfl

/-- A minimal cleaned scheme used in concrete tests. -/
def simpleScheme (i nm : String) : CleanedScheme :=
  { id := i, name := nm, nameHindi := "", nameTamil := ""
    category := "General", categoryHindi := "", categoryTamil := ""
    objective := "", objectiveHindi := "", objectiveTamil := ""
    eligibility := [], eligibilityHindi := [], eligibilityTamil := []
    documentsRequired := [], documentsRequiredHindi := []
    documentsRequiredTamil := []
    applicationProcedure := [], applicationProcedureHindi := []
    applicationProcedureTamil := []
    benefits := "", benefitsHindi := "", benefitsTamil := ""
    deadline := "Ongoing", deadlineHindi := "", deadlineTamil := ""
    contactInfo := "", contactInfoHindi := "", contactInfoTamil := ""
    website := "", source := "Unknown", lastUpdated := "2024-01-01"
    tags := [] }

/-- The baseline environment with ChromaDB present and all oracles fine. -/
def chromaUpEnv : Env := { baseEnv with chromaPresent := true }

/-- Witness for claim C9 with five records and chunk size two. -/
theorem addSchemesToVectorDB_chunking_witness :
    0 < 2 ∧ chromaUpEnv.chromaPresent = true
    ∧ (∀ i, chromaUpEnv.chromaAdd i = .ok ())
    ∧ chunkSizes 500 1200 = [500, 500, 200] :=
  ⟨by norm_num, rfl, fun i => rfl,
   (addSchemesToVectorDB_chunking chromaUpEnv emptySt
      [simpleScheme "a" "A", simpleScheme "b" "B", simpleScheme "c" "C",
       simpleScheme "d" "D", simpleScheme "e" "E"] 2 (by norm_num) rfl
      (fun i => rfl)).2.2.2.2⟩

theorem l2norm_single_one : l2norm [(1 : ℝ)] = 1 := by
  unfold l2norm
  have hd : dotList [(1 : ℝ)] [(1 : ℝ)] = 1 := by
    simp [dotList]
  rw [hd, Real.sqrt_one]

theorem cosineSimilarity_ones :
    cosineSimilarity [(1 : ℝ)] [(1 : ℝ)] = some 1 := by
  unfold cosineSimilarity
  rw [if_neg (by simp)]
  rw [if_neg (by simp [l2norm_single_one])]
  have hd : dotList [(1 : ℝ)] [(1 : ℝ)] = 1 := by simp [dotList]
  rw [hd, l2norm_single_one]
  norm_num

theorem map_eq_pair_of_const {α β : Type} (l : List α) (f : α → β) (v : β)
    (hl : l.length = 2) (hall : ∀ x ∈ l, f x = v) : l.map f = [v, v] := by
  rcases l with _ | ⟨a, _ | ⟨b, _ | ⟨c, t⟩⟩⟩ <;> simp_all

theorem searchInMemoryVectors_run_ids (q : List ℝ) (k : Nat) (env : Env)
    (s : St) (sims : List ℝ)
    (hmap : omapM (fun e => cosineSimilarity q (castEmb e))
        s.inMemoryEmbeddings = some sims) :
    ∃ res, searchInMemoryVectors q k env s = (.ok res, s)
      ∧ res.length = min k sims.length
      ∧ ∀ r ∈ res, ∃ i, i < sims.length
          ∧ r.id = (s.inMemoryVectors.getD i dummyVecEntry).id := by
  have hrun : searchInMemoryVectors q k env s =
      (.ok ((((sims.enum.map fun p => SimEntry.mk p.1 p.2).mergeSort
          (fun a b => decide (b.similarity ≤ a.similarity))).take k).map
        (fun it =>
          let v := s.inMemoryVectors.getD it.index dummyVecEntry
          { id := v.id, name := v.metadata.name
            category := v.metadata.category
            score := it.similarity, metadata := v.metadata })), s) := by
    unfold searchInMemoryVectors
    rw [hmap]
  have hperm := List.mergeSort_perm
    (sims.enum.map fun p => SimEntry.mk p.1 p.2)
    (fun a b => decide (b.similarity ≤ a.similarity))
  have hslen : ((sims.enum.map fun p => SimEntry.mk p.1 p.2).mergeSort
      (fun a b => decide (b.similarity ≤ a.similarity))).length
      = sims.length := by
    rw [hperm.length_eq, List.length_map, List.enum_length]
  refine ⟨_, hrun, ?_, ?_⟩
  · rw [List.length_map, List.length_take, hslen]
  · intro r hr
    rcases List.mem_map.mp hr with ⟨it, hit, rfl⟩
    have hit1 : it ∈ (sims.enum.map fun p => SimEntry.mk p.1 p.2).mergeSort
        (fun a b => decide (b.similarity ≤ a.similarity)) :=
      List.take_subset _ _ hit
    have hit2 : it ∈ sims.enum.map fun p => SimEntry.mk p.1 p.2 :=
      hperm.mem_iff.mp hit1
    rcases List.mem_map.mp hit2 with ⟨p, hp, rfl⟩
    rcases p with ⟨i, v⟩
    have henum := List.mem_enum hp
    exact ⟨i, henum.1, rfl⟩

/-- The in-memory store after adding two schemes with the same id `s1`
but different content. -/
def dupStore : St :=
  ((addSchemeToVectorDB (simpleScheme "s1" "First version") >>= fun _ =>
      addSchemeToVectorDB (simpleScheme "s1" "Second version"))
    baseEnv emptySt).2

/-- Claim C3, demonstration of the code defect: on the in-process backend,
upserting the same `SchemeRecord.id` twice with different content appends
a second entry instead of overwriting: the store then holds two entries
for id `s1` with different texts, and a query with limit 2 returns two
results with the same id, contradicting the claimed idempotent upsert. -/
theorem addSchemeToVectorDB_duplicate_id :
    dupStore.inMemoryVectors.map VecEntry.id = ["s1", "s1"]
    ∧ dupStore.inMemoryVectors.length = 2
    ∧ (dupStore.inMemoryVectors.getD 0 dummyVecEntry).text ≠
        (dupStore.inMemoryVectors.getD 1 dummyVecEntry).text
    ∧ ∃ res, searchSimilarSchemes "scheme" 2 baseEnv dupStore
          = (.ok res, dupStore)
        ∧ res.map SearchResult.id = ["s1", "s1"] := by
  refine ⟨rfl, rfl, by decide, ?_⟩
  have hq : castEmb (embedOf baseEnv "scheme") = [(1 : ℝ)] := by
    have h1 : embedOf baseEnv "scheme" = [(1 : ℚ)] := rfl
    rw [h1]
    simp [castEmb]
  have hcast : castEmb [(1 : ℚ)] = [(1 : ℝ)] := by simp [castEmb]
  have hemb : dupStore.inMemoryEmbeddings = [[(1 : ℚ)], [(1 : ℚ)]] := rfl
  have homap : omapM
      (fun e => cosineSimilarity (castEmb (embedOf baseEnv "scheme"))
        (castEmb e)) dupStore.inMemoryEmbeddings = some [1, 1] := by
    rw [hemb]
    simp only [omapM, hq, hcast, cosineSimilarity_ones]
  obtain ⟨res, hrun, hlen, hall⟩ := searchInMemoryVectors_run_ids
    (castEmb (embedOf baseEnv "scheme")) 2 baseEnv dupStore [1, 1] homap
  have hsearch : searchSimilarSchemes "scheme" 2 baseEnv dupStore
      = (.ok res, dupStore) := by
    unfold searchSimilarSchemes jsTry
    rw [searchAttempt_run]
    rw [if_neg (by simp [baseEnv])]
    rw [hrun]
  refine ⟨res, hsearch, ?_⟩
  refine map_eq_pair_of_const res SearchResult.id "s1" (by simpa using hlen) ?_
  intro r hr
  rcases hall r hr with ⟨i, hi, hid⟩
  have hi2 : i < 2 := by simpa using hi
  clear hi
  interval_cases i
  · rw [hid]; rfl
  · rw [hid]; rfl

/-- One processed record of `processTrainingData` (ragTrainer.js lines
94-115): the original scheme enhanced with derived metadata fields. -/
structure EnhancedScheme where
  base : CleanedScheme
  searchableText : String
  keywords : List String
  complexity : Nat
  priority : Nat
deriving DecidableEq

/-- JavaScript `hay.includes(piece)` (substring containment). -/
def jsIncludes (hay piece : String) : Bool :=
  decide (List.IsInfix piece.data hay.data)

/-- `createSearchableText` (ragTrainer.js lines 120-131): non-empty parts
joined by spaces, lower-cased. -/
def createSearchableText (s : CleanedScheme) : String :=
  jsToLower (String.intercalate " "
    (([s.name, s.category, s.objective,
       String.intercalate " " s.eligibility, s.benefits,
       String.intercalate " " s.tags]).filter (· ≠ "")))

/-- The stop-word list of `isStopWord` (ragTrainer.js lines 628-635). -/
def stopWords : List String :=
  ["the", "a", "an", "and", "or", "but", "in", "on", "at", "to", "for",
   "of", "with", "by", "is", "are", "was", "were", "be", "been", "have",
   "has", "had", "do", "does", "did", "will", "would", "could", "should"]

/-- `isStopWord` (ragTrainer.js lines 628-635). -/
def isStopWord (w : String) : Bool := jsToLower w ∈ stopWords

/-- JavaScript `Set` insertion: append if not already present. -/
def insertUnique (l : List String) (x : String) : List String :=
  if x ∈ l then l else l ++ [x]

/-- `extractKeywords` (ragTrainer.js lines 136-167). The final block checks
`scheme.searchableText?.includes(...)`, but the input record has no
`searchableText` yet (it is added only afterwards), so those checks are
undefined-propagating and never add a keyword. -/
def extractKeywords (s : CleanedScheme) : List String :=
  let k1 := insertUnique [] (jsToLower s.category)
  let k2 := ((jsToLower s.name).splitOn " ").foldl
    (fun acc w => if 3 < w.length then insertUnique acc w else acc) k1
  ((jsToLower s.objective).splitOn " ").foldl
    (fun acc w =>
      if 4 < w.length && !(isStopWord w) then insertUnique acc w else acc) k2

/-- `calculateComplexity` (ragTrainer.js lines 172-185). -/
def calculateComplexity (s : CleanedScheme) : Nat :=
  let c1 := 1 + (if 3 < s.eligibility.length then 1 else 0)
  let c2 := c1 + (if 5 < s.documentsRequired.length then 1 else 0)
  let c3 := c2 + (if 4 < s.applicationProcedure.length then 1 else 0)
  min c3 5

/-- The high-priority keyword list (ragTrainer.js line 194). -/
def highPriorityKeywords : List String :=
  ["pm kisan", "mgnrega", "pmay", "ayushman", "jan dhan"]

/-- `calculatePriority` (ragTrainer.js lines 190-211). The
`scheme.searchableText?.includes` checks are undefined-propagating at this
point (see `extractKeywords`), so only the name check of the high-priority
branch can fire and the medium-priority branch never does. -/
def calculatePriority (s : CleanedScheme) : Nat :=
  let p1 := 1 +
    (if highPriorityKeywords.any (fun kw => jsIncludes (jsToLower s.name) kw)
     then 2 else 0)
  min p1 5

/-- One record of `processTrainingData` (ragTrainer.js lines 97-112). -/
def enhanceScheme (s : CleanedScheme) : EnhancedScheme :=
  { base := s, searchableText := createSearchableText s
    keywords := extractKeywords s, complexity := calculateComplexity s
    priority := calculatePriority s }

/-- `processTrainingData` (ragTrainer.js lines 94-115): pure enhancement
of every record in order. -/
def processTrainingData (schemes : List CleanedScheme) : List EnhancedScheme :=
  schemes.map enhanceScheme

/-- One query template (ragTrainer.js lines 244-309). -/
structure QueryTemplate where
  text : String
  language : String
  difficulty : String
  category : String
deriving DecidableEq

/-- `generateQueriesForScheme` (ragTrainer.js lines 244-309): the fixed
eight templates. -/
def generateQueriesForScheme (s : CleanedScheme) : List QueryTemplate :=
  [ { text := "What is " ++ s.name ++ "?", language := "en"
      difficulty := "easy", category := "general" }
  , { text := s.name ++ " के बारे में बताएं", language := "hi"
      difficulty := "easy", category := "general" }
  , { text := s.name ++ " பற்றி சொல்லுங்கள்", language := "ta"
      difficulty := "easy", category := "general" }
  , { text := "Who is eligible for " ++ s.name ++ "?", language := "en"
      difficulty := "medium", category := "eligibility" }
  , { text := s.name ++ " के लिए कौन पात्र है?", language := "hi"
      difficulty := "medium", category := "eligibility" }
  , { text := "What are the benefits of " ++ s.name ++ "?", language := "en"
      difficulty := "easy", category := "benefits" }
  , { text := "How to apply for " ++ s.name ++ "?", language := "en"
      difficulty := "hard", category := "procedure" }
  , { text := "Tell me about " ++ s.category ++ " schemes", language := "en"
      difficulty := "medium", category := "category" } ]

/-- Localized string field selection `scheme[field] || scheme.<en>`
(ragTrainer.js lines 336-379): the empty localized string falls back. -/
def pickLocalized (lang en hi ta : String) : String :=
  if lang = "hi" then jsOrS hi en
  else if lang = "ta" then jsOrS ta en
  else en

/-- Localized list field selection (ragTrainer.js lines 346-350 and
365-369): a cleaned record always carries arrays, and an array (even
empty) is truthy, so the localized array always wins for hi/ta. -/
def pickLocalizedList (lang : String) (en hi ta : List String) :
    List String :=
  if lang = "hi" then hi else if lang = "ta" then ta else en

/-- `generateExpectedResponse` and its helpers (ragTrainer.js lines
314-379). -/
def generateExpectedResponse (s : CleanedScheme) (q : QueryTemplate) :
    String :=
  if q.category = "general" ∨
      (q.category ≠ "eligibility" ∧ q.category ≠ "benefits" ∧
       q.category ≠ "procedure" ∧ q.category ≠ "category") then
    pickLocalized q.language s.name s.nameHindi s.nameTamil ++
      " is a government scheme. " ++
      pickLocalized q.language s.objective s.objectiveHindi s.objectiveTamil
  else if q.category = "eligibility" then
    "Eligibility criteria: " ++ joinComma
      (pickLocalizedList q.language s.eligibility s.eligibilityHindi
        s.eligibilityTamil)
  else if q.category = "benefits" then
    "Benefits: " ++
      pickLocalized q.language s.benefits s.benefitsHindi s.benefitsTamil
  else if q.category = "procedure" then
    "Application procedure: " ++ joinComma
      (pickLocalizedList q.language s.applicationProcedure
        s.applicationProcedureHindi s.applicationProcedureTamil)
  else
    pickLocalized q.language s.category s.categoryHindi s.categoryTamil ++
      " scheme: " ++ s.name

/-- The examples generated for one scheme (ragTrainer.js lines 219-233). -/
def examplesForScheme (s : EnhancedScheme) : List TrainingExample :=
  (generateQueriesForScheme s.base).map fun q =>
    { query := q.text, language := q.language, expectedScheme := s.base.id
      expectedResponse := generateExpectedResponse s.base q
      difficulty := q.difficulty, category := q.category }

/-- `saveTrainingExamples` (ragTrainer.js lines 582-591): the write error
is caught and only logged. -/
def saveTrainingExamples (examples : List TrainingExample) : M Unit :=
  fun env s =>
    if env.fsWriteOk then (.ok (), { s with examplesFile := some examples })
    else (.ok (), s)

/-- `generateTrainingExamples` (ragTrainer.js lines 216-239). -/
def generateTrainingExamples (schemes : List EnhancedScheme) :
    M (List TrainingExample) := do
  let trainingExamples := schemes.flatMap examplesForScheme
  saveTrainingExamples trainingExamples
  pure trainingExamples

/-- The batch path of `trainVectorDatabase` (ragTrainer.js line 392):
batch-add all processed schemes with the configured chunk size. -/
def trainVectorDatabaseBatchPath (schemes : List EnhancedScheme) : M Unit := do
  let env ← readEnv
  addSchemesToVectorDB (schemes.map EnhancedScheme.base) env.batchSize

/-- The fallback path of `trainVectorDatabase` (ragTrainer.js lines
394-402): per-scheme adds, each of which swallows its own errors. -/
def trainVectorDatabaseFallback (schemes : List EnhancedScheme) : M Unit :=
  mforM (fun sch => addSchemeToVectorDB sch.base) schemes

/-- `trainVectorDatabase` (ragTrainer.js lines 384-405): try the batch
path; on its failure fall back to the per-scheme adds. -/
def trainVectorDatabase (schemes : List EnhancedScheme) : M Unit :=
  jsTry (trainVectorDatabaseBatchPath schemes)
    (fun _ => trainVectorDatabaseFallback schemes)

/-- The canonical validation queries (ragTrainer.js lines 518-523). -/
def testQueries : List String :=
  ["What is PM Kisan scheme?", "Tell me about agriculture schemes",
   "How to apply for MGNREGA?", "What are the benefits of PMAY?"]

/-- The per-query accumulation loop of `validateTraining` (ragTrainer.js
lines 534-548): count successful retrievals and add the mean score. -/
noncomputable def validateLoop :
    List String → Nat × ℝ → M (Nat × ℝ)
  | [], acc => pure acc
  | q :: rest, (succ, scoreSum) => do
    let results ← searchSimilarSchemes q 3
    if 0 < results.length then
      validateLoop rest (succ + 1,
        scoreSum + (results.map SearchResult.score).sum / (results.length : ℝ))
    else
      validateLoop rest (succ, scoreSum)

/-- `validateTraining` (ragTrainer.js lines 515-555). -/
noncomputable def validateTraining : M ValidationResults := do
  let acc ← validateLoop testQueries (0, 0)
  let env ← readEnv
  pure { totalTestQueries := testQueries.length
         successfulRetrievals := acc.1
         averageRelevanceScore := acc.2 / (testQueries.length : ℝ)
         responseTime := env.elapsedMs }

/-- The snapshot written by `saveTrainingResults` (ragTrainer.js lines
562-567). `validationResults.totalSchemes` is undefined there, so the
recorded `totalSchemes` is always `0`. -/
def mkTrainingResults (env : Env) (v : ValidationResults) : TrainingResults :=
  { totalSchemes := 0
    trainingAccuracy := (v.successfulRetrievals : ℚ) / (v.totalTestQueries : ℚ)
    lastTrainingDate := env.now
    modelVersion := "1.0.0"
    validationResults := v }

/-- `saveTrainingResults` (ragTrainer.js lines 560-577): the write error
is caught and only logged; the snapshot file is replaced on success. -/
def saveTrainingResults (v : ValidationResults) : M Unit := fun env s =>
  if env.fsWriteOk then
    (.ok (), { s with resultsFile := some (mkTrainingResults env v) })
  else (.ok (), s)

/-- JavaScript `[...new Set(list)]`: deduplicate preserving first-seen
order. -/
def dedupPreserve (l : List String) : List String := l.foldl insertUnique []

/-- `saveDataToFile` (dataScraper.js lines 384-411): writes the scraped
schemes and the scraping metadata; a write failure is rethrown. -/
def saveDataToFile (schemes : List CleanedScheme) : M Unit := fun env s =>
  if env.fsWriteOk then
    (.ok (), { s with
      schemesFile := some schemes
      metadataFile := some
        { totalSchemes := schemes.length, lastUpdated := env.now
          sources := dedupPreserve (schemes.map CleanedScheme.source)
          categories := dedupPreserve (schemes.map CleanedScheme.category) } })
  else (.error "fs write failed", s)

/-- `fetchAllSchemeData` (dataScraper.js lines 33-62): merge the three
per-source results (each already recovered to a list by its own catch),
clean and deduplicate, persist to `scraped_schemes.json`, return the
cleaned list; any error is logged and rethrown. -/
def fetchAllSchemeData : M (List CleanedScheme) :=
  jsTry
    (do
      let env ← readEnv
      match cleanAndDeduplicateData env.now env.freshId
          (env.myschemeData ++ env.nspData ++ env.pmkisanData) with
      | .error e => mthrow e
      | .ok cleaned => do
        saveDataToFile cleaned
        pure cleaned)
    mthrow

/-- The state after a successful `fetchAllSchemeData`: the cleaned list
and the scraping metadata persisted, everything else untouched. -/
def fetchOkSt (env : Env) (s : St) (cleaned : List CleanedScheme) : St :=
  { s with
    schemesFile := some cleaned
    metadataFile := some
      { totalSchemes := cleaned.length
        lastUpdated := env.now
        sources := dedupPreserve (cleaned.map CleanedScheme.source)
        categories := dedupPreserve (cleaned.map CleanedScheme.category) } }

/-- `loadScrapedData` (dataScraper.js lines 416-425): read failure is
caught and yields the empty list. -/
def loadScrapedData : M (List CleanedScheme) := fun _ s =>
  (.ok (s.schemesFile.getD []), s)

/-- `hasDataChanged` (ragTrainer.js lines 666-678; the scheduler carries
an identical copy at lines 823-839): changed when the lengths differ or
some fresh record has no same-id record with the same `lastUpdated` among
the existing ones. -/
def hasDataChanged (newData existingData : List CleanedScheme) : Bool :=
  if newData.length ≠ existingData.length then true
  else newData.any fun ns =>
    match existingData.find? (fun es => es.id = ns.id) with
    | none => true
    | some es => es.lastUpdated ≠ ns.lastUpdated

/-- The summary returned by a full `trainRAGModel` run (ragTrainer.js
lines 78-83). -/
structure TrainOutcome where
  totalSchemes : Nat
  trainingExamples : Nat
  validation : ValidationResults

/-- Stage two of `trainRAGModel` (ragTrainer.js lines 31-44): the
optional local-dataset override swallows its own read errors and applies
only when the parsed list is non-empty. -/
noncomputable def selectDataset (scraped : List CleanedScheme) :
    M (List CleanedScheme) := do
  let env ← readEnv
  if env.useLocalData then
    match env.localDataset with
    | .ok ld => pure (if ld.isEmpty then scraped else ld)
    | .error _ => pure scraped
  else pure scraped

/-- Stages three to six of `trainRAGModel` (ragTrainer.js lines 47-83):
process, generate examples, ingest vectors, validate, persist the
snapshot, return the summary. -/
noncomputable def trainStages (scrapedData : List CleanedScheme) :
    M TrainOutcome := do
  let processedData := processTrainingData scrapedData
  let trainingExamples ← generateTrainingExamples processedData
  trainVectorDatabase processedData
  let validationResults ← validateTraining
  saveTrainingResults validationResults
  pure { totalSchemes := processedData.length
         trainingExamples := trainingExamples.length
         validation := validationResults }

/-- `trainRAGModel` (ragTrainer.js lines 22-89): the six-stage pipeline;
the catch logs and rethrows the causal error. -/
noncomputable def trainRAGBody : M TrainOutcome := do
  let scraped ← fetchAllSchemeData
  let scrapedData ← selectDataset scraped
  trainStages scrapedData

/-- `trainRAGModel` is its staged body with the catch that logs and
rethrows the causal error. -/
noncomputable def trainRAGModel : M TrainOutcome :=
  jsTry trainRAGBody mthrow

/-- The result of `retrainModel`: either a full run or the no-op skip
`{ success: true, message: 'No retraining needed' }`. -/
inductive RetrainOutcome where
  | trained (r : TrainOutcome)
  | noop

/-- `retrainModel` (ragTrainer.js lines 640-661): fetch fresh data,
compare against the previously persisted dataset, and either run the full
pipeline or skip. -/
noncomputable def retrainBody : M RetrainOutcome := do
  let freshData ← fetchAllSchemeData
  let existingData ← loadScrapedData
  if hasDataChanged freshData existingData then
    (fun r => RetrainOutcome.trained r) <$> trainRAGModel
  else pure RetrainOutcome.noop

/-- `retrainModel` is its body with the rethrowing catch. -/
noncomputable def retrainModel : M RetrainOutcome :=
  jsTry retrainBody mthrow

/-- The merged source list fetched by `fetchAllSchemeData`. -/
def allSources (env : Env) : List RawScheme :=
  env.myschemeData ++ env.nspData ++ env.pmkisanData

theorem searchInMemoryVectors_state (q : List ℝ) (k : Nat) (env : Env)
    (s : St) : (searchInMemoryVectors q k env s).2 = s := by
  unfold searchInMemoryVectors
  rcases homap : omapM (fun e => cosineSimilarity q (castEmb e))
      s.inMemoryEmbeddings with _ | sims <;> simp

theorem searchAttempt_state (q : String) (k : Nat) (env : Env) (s : St) :
    (searchAttempt q k env s).2 = s := by
  rw [searchAttempt_run]
  cases hc : env.chromaPresent with
  | false => simp [searchInMemoryVectors_state]
  | true =>
    rcases hq : env.chromaQuery q k with e | ⟨metas, dists⟩ <;> simp

theorem searchSimilarSchemes_run_ok (q : String) (k : Nat) (env : Env)
    (s : St) : ∃ l, searchSimilarSchemes q k env s = (.ok l, s) := by
  unfold searchSimilarSchemes jsTry
  have hst := searchAttempt_state q k env s
  rcases hb : searchAttempt q k env s with ⟨r, s1⟩
  rw [hb] at hst
  subst hst
  cases r with
  | ok a => exact ⟨a, rfl⟩
  | error e => exact ⟨[], rfl⟩

theorem validateLoop_run (env : Env) :
    ∀ (qs : List String) (acc : Nat × ℝ) (s : St),
      ∃ acc1, validateLoop qs acc env s = (.ok acc1, s) := by
  intro qs
  induction qs with
  | nil => intro acc s; exact ⟨acc, rfl⟩
  | cons q rest ih =>
    intro acc s
    rcases acc with ⟨succ, scoreSum⟩
    obtain ⟨l, hl⟩ := searchSimilarSchemes_run_ok q 3 env s
    simp only [validateLoop, run_bind, hl]
    by_cases hlen : 0 < l.length
    · rw [if_pos hlen]
      exact ih _ s
    · rw [if_neg hlen]
      exact ih _ s

theorem validateTraining_run (env : Env) (s : St) :
    ∃ v, validateTraining env s = (.ok v, s) := by
  obtain ⟨acc1, hacc⟩ := validateLoop_run env testQueries (0, 0) s
  unfold validateTraining
  simp only [run_bind, hacc, readEnv, run_pure]
  exact ⟨_, rfl⟩

theorem saveTrainingResults_run (v : ValidationResults) (env : Env) (s : St) :
    saveTrainingResults v env s =
      (.ok (), if env.fsWriteOk then
        { s with resultsFile := some (mkTrainingResults env v) } else s) := by
  unfold saveTrainingResults
  cases env.fsWriteOk <;> simp

theorem generateTrainingExamples_run (schemes : List EnhancedScheme)
    (env : Env) (s : St) :
    generateTrainingExamples schemes env s =
      (.ok (schemes.flatMap examplesForScheme),
        if env.fsWriteOk then
          { s with examplesFile := some (schemes.flatMap examplesForScheme) }
        else s) := by
  unfold generateTrainingExamples saveTrainingExamples
  cases h : env.fsWriteOk <;> simp [run_bind, h] <;> rfl

/-- A computation that touches at most the vector stores: the four data
files are left unchanged. -/
def VectorOnly {α : Type} (x : M α) : Prop := ∀ env s,
  ((x env s).2.resultsFile = s.resultsFile)
  ∧ ((x env s).2.schemesFile = s.schemesFile)
  ∧ ((x env s).2.examplesFile = s.examplesFile)
  ∧ ((x env s).2.metadataFile = s.metadataFile)

theorem vectorOnly_pure {α : Type} (a : α) : VectorOnly (pure a : M α) :=
  fun _ _ => ⟨rfl, rfl, rfl, rfl⟩

theorem vectorOnly_mthrow {α : Type} (e : JsError) :
    VectorOnly (mthrow e : M α) :=
  fun _ _ => ⟨rfl, rfl, rfl, rfl⟩

theorem vectorOnly_bind {α β : Type} {x : M α} {f : α → M β}
    (hx : VectorOnly x) (hf : ∀ a, VectorOnly (f a)) :
    VectorOnly (x >>= f) := by
  intro env s
  have hxs := hx env s
  rw [run_bind]
  rcases hx1 : x env s with ⟨r, s1⟩
  rw [hx1] at hxs
  cases r with
  | error e => exact hxs
  | ok a =>
    have hfs := hf a env s1
    exact ⟨hfs.1.trans hxs.1, hfs.2.1.trans hxs.2.1,
      hfs.2.2.1.trans hxs.2.2.1, hfs.2.2.2.trans hxs.2.2.2⟩

theorem vectorOnly_jsTry {α : Type} {x : M α} {h : JsError → M α}
    (hx : VectorOnly x) (hh : ∀ e, VectorOnly (h e)) :
    VectorOnly (jsTry x h) := by
  intro env s
  have hxs := hx env s
  unfold jsTry
  rcases hx1 : x env s with ⟨r, s1⟩
  rw [hx1] at hxs
  cases r with
  | ok a => exact hxs
  | error e =>
    have hhs := hh e env s1
    exact ⟨hhs.1.trans hxs.1, hhs.2.1.trans hxs.2.1,
      hhs.2.2.1.trans hxs.2.2.1, hhs.2.2.2.trans hxs.2.2.2⟩

theorem vectorOnly_readEnv : VectorOnly readEnv :=
  fun _ _ => ⟨rfl, rfl, rfl, rfl⟩

theorem vectorOnly_generateEmbedding (t : String) :
    VectorOnly (generateEmbedding t) := by
  intro env s
  rw [generateEmbedding_run]
  exact ⟨rfl, rfl, rfl, rfl⟩

theorem vectorOnly_chromaAddCall (items : List ChromaItem) :
    VectorOnly (chromaAddCall items) := by
  intro env s
  unfold chromaAddCall
  cases h : env.chromaAdd s.chromaAddLog.length <;> simp [h]

theorem vectorOnly_pushInMemory (entry : VecEntry) (emb : List ℚ) :
    VectorOnly (pushInMemory entry emb) :=
  fun _ _ => ⟨rfl, rfl, rfl, rfl⟩

theorem vectorOnly_addChunkItems (batch : List CleanedScheme) :
    VectorOnly (addChunkItems batch) := by
  intro env s
  rw [addChunkItems_run]
  exact ⟨rfl, rfl, rfl, rfl⟩

theorem vectorOnly_mforM {α : Type} {f : α → M Unit}
    (hf : ∀ a, VectorOnly (f a)) :
    ∀ l : List α, VectorOnly (mforM f l) := by
  intro l
  induction l with
  | nil => exact vectorOnly_pure ()
  | cons x xs ih =>
    show VectorOnly (f x >>= fun _ => mforM f xs)
    exact vectorOnly_bind (hf x) (fun _ => ih)

theorem vectorOnly_addSchemesLoop (c : Nat) :
    ∀ (n : Nat) (l : List CleanedScheme), l.length = n →
      VectorOnly (addSchemesLoop c l) := by
  intro n
  induction n using Nat.strong_induction_on with
  | _ n ih =>
    intro l hn
    cases l with
    | nil => rw [addSchemesLoop_nil]; exact vectorOnly_pure ()
    | cons x xs =>
      by_cases hc : c = 0
      · have : addSchemesLoop c (x :: xs) = pure () := by
          rw [addSchemesLoop]
          simp [hc]
        rw [this]
        exact vectorOnly_pure ()
      · rw [addSchemesLoop_cons c hc x xs]
        refine vectorOnly_bind (vectorOnly_addChunkItems _) fun items =>
          vectorOnly_bind (vectorOnly_chromaAddCall items) fun _ =>
            ih ((x :: xs).length - c) ?_ ((x :: xs).drop c)
              (List.length_drop c (x :: xs))
        simp only [List.length_cons] at hn ⊢
        omega

theorem vectorOnly_addSchemesToVectorDB (schemes : List CleanedScheme)
    (c : Nat) : VectorOnly (addSchemesToVectorDB schemes c) := by
  unfold addSchemesToVectorDB
  refine vectorOnly_jsTry ?_ (fun e => vectorOnly_mthrow e)
  by_cases hemp : schemes.isEmpty
  · show VectorOnly (if schemes.isEmpty then _ else _)
    rw [if_pos hemp]
    exact vectorOnly_pure ()
  · show VectorOnly (if schemes.isEmpty then _ else _)
    rw [if_neg hemp]
    refine vectorOnly_bind vectorOnly_readEnv fun env => ?_
    by_cases hc : env.chromaPresent
    · rw [if_pos hc]
      exact vectorOnly_addSchemesLoop c schemes.length schemes rfl
    · rw [if_neg hc]
      exact vectorOnly_mforM (fun sch =>
        vectorOnly_bind (vectorOnly_generateEmbedding _) fun _ =>
          vectorOnly_pushInMemory _ _) schemes

theorem vectorOnly_addSchemeToVectorDB (sch : CleanedScheme) :
    VectorOnly (addSchemeToVectorDB sch) := by
  unfold addSchemeToVectorDB
  refine vectorOnly_jsTry ?_ (fun e => vectorOnly_pure ())
  refine vectorOnly_bind (vectorOnly_generateEmbedding _) fun emb => ?_
  refine vectorOnly_bind vectorOnly_readEnv fun env => ?_
  by_cases hc : env.chromaPresent
  · rw [if_pos hc]
    exact vectorOnly_chromaAddCall _
  · rw [if_neg hc]
    exact vectorOnly_pushInMemory _ _

/-- Pointwise use of a `VectorOnly` fact. -/
theorem vectorOnly_apply {α : Type} {x : M α} (h : VectorOnly x)
    (env : Env) (s : St) :
    ((x env s).2.resultsFile = s.resultsFile)
    ∧ ((x env s).2.schemesFile = s.schemesFile)
    ∧ ((x env s).2.examplesFile = s.examplesFile)
    ∧ ((x env s).2.metadataFile = s.metadataFile) := h env s

attribute [irreducible] VectorOnly

theorem vectorOnly_trainVectorDatabaseBatchPath
    (schemes : List EnhancedScheme) :
    VectorOnly (trainVectorDatabaseBatchPath schemes) := by
  unfold trainVectorDatabaseBatchPath
  exact vectorOnly_bind vectorOnly_readEnv fun env1 =>
    vectorOnly_addSchemesToVectorDB _ _

theorem vectorOnly_trainVectorDatabaseFallback
    (schemes : List EnhancedScheme) :
    VectorOnly (trainVectorDatabaseFallback schemes) := by
  unfold trainVectorDatabaseFallback
  exact @vectorOnly_mforM EnhancedScheme
    (fun sch => addSchemeToVectorDB sch.base)
    (fun sch => vectorOnly_addSchemeToVectorDB sch.base) schemes

theorem vectorOnly_trainVectorDatabase (schemes : List EnhancedScheme) :
    VectorOnly (trainVectorDatabase schemes) := by
  unfold trainVectorDatabase
  exact vectorOnly_jsTry (vectorOnly_trainVectorDatabaseBatchPath schemes)
    (fun _ => vectorOnly_trainVectorDatabaseFallback schemes)

theorem jsTry_ok {α : Type} (x : M α) (h : JsError → M α)
    (hh : ∀ e env s, ∃ a s1, h e env s = (.ok a, s1)) (env : Env) (s : St) :
    ∃ a s1, jsTry x h env s = (.ok a, s1) := by
  unfold jsTry
  rcases hx : x env s with ⟨r, s1⟩
  cases r with
  | ok a => exact ⟨a, s1, rfl⟩
  | error e => exact hh e env s1

theorem addSchemeToVectorDB_ok (sch : CleanedScheme) (env : Env) (s : St) :
    ∃ s1, addSchemeToVectorDB sch env s = (.ok (), s1) := by
  unfold addSchemeToVectorDB
  obtain ⟨a, s1, h⟩ := jsTry_ok _ _ (fun e env1 st1 => ⟨(), st1, rfl⟩) env s
  exact ⟨s1, h⟩

theorem mforM_addScheme_ok (l : List EnhancedScheme) :
    ∀ (env : Env) (s : St), ∃ s1,
      trainVectorDatabaseFallback l env s = (.ok (), s1) := by
  unfold trainVectorDatabaseFallback
  induction l with
  | nil => intro env s; exact ⟨s, rfl⟩
  | cons x xs ih =>
    intro env s
    obtain ⟨s1, h1⟩ := addSchemeToVectorDB_ok x.base env s
    obtain ⟨s2, h2⟩ := ih env s1
    refine ⟨s2, ?_⟩
    show (addSchemeToVectorDB x.base >>= fun _ =>
      mforM (fun sch => addSchemeToVectorDB sch.base) xs) env s = _
    rw [run_bind, h1]
    exact h2

theorem trainVectorDatabase_ok (schemes : List EnhancedScheme) (env : Env)
    (s : St) : ∃ s1, trainVectorDatabase schemes env s = (.ok (), s1) := by
  unfold trainVectorDatabase
  obtain ⟨a, s1, h⟩ := jsTry_ok (trainVectorDatabaseBatchPath schemes)
    (fun _ => trainVectorDatabaseFallback schemes)
    (fun e env1 st1 => by
      obtain ⟨s2, h2⟩ := mforM_addScheme_ok schemes env1 st1
      exact ⟨(), s2, h2⟩) env s
  exact ⟨s1, h⟩

theorem addSchemesLoop_run_fail (c : Nat) (hc : 0 < c) :
    ∀ (n : Nat) (l : List CleanedScheme), l.length = n →
      ∀ (k : Nat) (e : JsError) (env : Env) (s : St),
      k < (chunksOf c l).length →
      (∀ i, i < k → env.chromaAdd (s.chromaAddLog.length + i) = .ok ()) →
      env.chromaAdd (s.chromaAddLog.length + k) = .error e →
      addSchemesLoop c l env s =
        (.error e, { s with chromaAddLog := s.chromaAddLog ++
            ((chunksOf c l).take (k + 1)).map (chunkItems env) }) := by
  intro n
  induction n using Nat.strong_induction_on with
  | _ n ih =>
    intro l hn k e env s hk hok hfail
    cases l with
    | nil =>
      rw [chunksOf_nil] at hk
      simp at hk
    | cons x xs =>
      rw [addSchemesLoop_cons c (by omega) x xs]
      rw [@chunksOf_cons CleanedScheme c (x :: xs) (by simp) (by omega)]
        at hk ⊢
      cases k with
      | zero =>
        have hfail0 : env.chromaAdd s.chromaAddLog.length = .error e := by
          simpa using hfail
        simp only [run_bind, addChunkItems_run, chromaAddCall, hfail0]
        simp
      | succ k =>
        have hok0 : env.chromaAdd s.chromaAddLog.length = .ok () := by
          simpa using hok 0 (by omega)
        simp only [run_bind, addChunkItems_run, chromaAddCall, hok0]
        have hlen1 :
            (s.chromaAddLog ++ [chunkItems env ((x :: xs).take c)]).length
              = s.chromaAddLog.length + 1 := by simp
        have hk1 : k < (chunksOf c ((x :: xs).drop c)).length := by
          simp only [List.length_cons] at hk
          omega
        have h2 : ∀ i, i < k → env.chromaAdd
            ((s.chromaAddLog ++ [chunkItems env ((x :: xs).take c)]).length
              + i) = .ok () := by
          intro i hi
          rw [hlen1, Nat.add_assoc, Nat.add_comm 1 i]
          exact hok (i + 1) (by omega)
        have h3 : env.chromaAdd
            ((s.chromaAddLog ++ [chunkItems env ((x :: xs).take c)]).length
              + k) = .error e := by
          rw [hlen1, Nat.add_assoc, Nat.add_comm 1 k]
          exact hfail
        rw [ih ((x :: xs).length - c)
          (by simp only [List.length_cons] at hn ⊢; omega)
          ((x :: xs).drop c) (List.length_drop c (x :: xs)) k e env _
          hk1 h2 h3]
        simp

/-- Five concrete cleaned records, giving three chunks of sizes 2, 2, 1
at chunk size two. -/
def fiveSchemes : List CleanedScheme :=
  [simpleScheme "a" "A", simpleScheme "b" "B", simpleScheme "c" "C",
   simpleScheme "d" "D", simpleScheme "e" "E"]

/-- An environment with ChromaDB present whose second (index 1)
`collection.add` call fails. -/
def chunkFailEnv : Env :=
  { baseEnv with
    chromaPresent := true
    chromaAdd := fun i =>
      if i = 1 then .error "chunk add failed" else .ok () }

/-- Counterexample to claim C8 as stated: with five records and chunk
size two there are three chunks, and when the second add call fails the
batch call throws that chunk error to its caller instead of accumulating
and reporting it, having issued only two of the three payloads — the
remaining chunk is dropped, not continued with. -/
theorem addSchemesToVectorDB_claim_as_stated_false :
    (chunksOf 2 fiveSchemes).length = 3
    ∧ ∃ s1, addSchemesToVectorDB fiveSchemes 2 chunkFailEnv emptySt
          = (.error "chunk add failed", s1)
        ∧ s1.chromaAddLog.length = 2 := by
  have hlen : (chunksOf 2 fiveSchemes).length = 3 := by
    rw [chunksOf_length 2 (by norm_num)]
    rfl
  have hk : 1 < (chunksOf 2 fiveSchemes).length := by
    rw [hlen]; norm_num
  have hok : ∀ i, i < 1 →
      chunkFailEnv.chromaAdd (emptySt.chromaAddLog.length + i) = .ok () := by
    intro i hi
    have h0 : i = 0 := by omega
    subst h0
    rfl
  have hfail : chunkFailEnv.chromaAdd (emptySt.chromaAddLog.length + 1)
      = .error "chunk add failed" := rfl
  have hrun : addSchemesToVectorDB fiveSchemes 2 chunkFailEnv emptySt =
      (.error "chunk add failed", { emptySt with chromaAddLog :=
          emptySt.chromaAddLog ++
            ((chunksOf 2 fiveSchemes).take 2).map (chunkItems chunkFailEnv) }) := by
    unfold addSchemesToVectorDB
    rw [jsTry_rethrow]
    rw [if_neg (by simp [fiveSchemes])]
    have hchroma : chunkFailEnv.chromaPresent = true := rfl
    simp only [run_bind, readEnv, hchroma, if_true]
    exact addSchemesLoop_run_fail 2 (by norm_num) fiveSchemes.length
      fiveSchemes rfl 1 "chunk add failed" chunkFailEnv emptySt hk hok hfail
  refine ⟨hlen, _, hrun, ?_⟩
  simp [emptySt, List.length_take, hlen]

/-- Claim C8: on the external-backend path a failing chunk add call
ABORTS the remaining batch rather than being accumulated — when the adds
before index `k` succeed and the one at `k` fails, `addSchemesToVectorDB`
issues exactly the first `k + 1` chunk payloads, drops every later chunk,
and rethrows the chunk error to its caller; the recovery the spec
describes lives one level up, where `trainVectorDatabase` catches the
batch error and falls back to per-record adds that swallow individual
failures, so that caller itself always returns normally. -/
theorem addSchemesToVectorDB_chunk_abort (env : Env) (s : St)
    (schemes : List CleanedScheme) (c k : Nat) (e : JsError)
    (hc : 0 < c) (hchroma : env.chromaPresent = true)
    (hk : k < (chunksOf c schemes).length)
    (hok : ∀ i, i < k → env.chromaAdd (s.chromaAddLog.length + i) = .ok ())
    (hfail : env.chromaAdd (s.chromaAddLog.length + k) = .error e) :
    addSchemesToVectorDB schemes c env s =
      (.error e, { s with chromaAddLog := s.chromaAddLog ++
          ((chunksOf c schemes).take (k + 1)).map (chunkItems env) })
    ∧ (((chunksOf c schemes).take (k + 1)).map (chunkItems env)).length
        = k + 1
    ∧ ∀ (l2 : List EnhancedScheme) (env2 : Env) (s2 : St),
        ∃ s3, trainVectorDatabase l2 env2 s2 = (.ok (), s3) := by
  have hne : schemes ≠ [] := by
    intro h
    subst h
    rw [chunksOf_nil] at hk
    simp at hk
  refine ⟨?_, ?_, fun l2 env2 s2 => trainVectorDatabase_ok l2 env2 s2⟩
  · unfold addSchemesToVectorDB
    rw [jsTry_rethrow]
    cases schemes with
    | nil => exact absurd rfl hne
    | cons x xs =>
      rw [if_neg (by simp)]
      simp only [run_bind, readEnv, hchroma, if_true]
      exact addSchemesLoop_run_fail c hc (x :: xs).length (x :: xs) rfl
        k e env s hk hok hfail
  · rw [List.length_map, List.length_take]
    omega

/-- Witness for claim C8: five records, chunk size two, second add call
failing. -/
theorem addSchemesToVectorDB_chunk_abort_witness :
    0 < 2 ∧ chunkFailEnv.chromaPresent = true
    ∧ 1 < (chunksOf 2 fiveSchemes).length
    ∧ (∀ i, i < 1 →
        chunkFailEnv.chromaAdd (emptySt.chromaAddLog.length + i) = .ok ())
    ∧ chunkFailEnv.chromaAdd (emptySt.chromaAddLog.length + 1)
        = .error "chunk add failed"
    ∧ (addSchemesToVectorDB fiveSchemes 2 chunkFailEnv emptySt =
        (.error "chunk add failed", { emptySt with chromaAddLog :=
            emptySt.chromaAddLog ++
              ((chunksOf 2 fiveSchemes).take 2).map (chunkItems chunkFailEnv) })
      ∧ (((chunksOf 2 fiveSchemes).take 2).map
          (chunkItems chunkFailEnv)).length = 2
      ∧ ∀ (l2 : List EnhancedScheme) (env2 : Env) (s2 : St),
          ∃ s3, trainVectorDatabase l2 env2 s2 = (.ok (), s3)) := by
  have hk : 1 < (chunksOf 2 fiveSchemes).length := by
    rw [chunksOf_length 2 (by norm_num)]
    decide
  have hok : ∀ i, i < 1 →
      chunkFailEnv.chromaAdd (emptySt.chromaAddLog.length + i) = .ok () := by
    intro i hi
    have h0 : i = 0 := by omega
    subst h0
    rfl
  exact ⟨by norm_num, rfl, hk, hok, rfl,
    addSchemesToVectorDB_chunk_abort chunkFailEnv emptySt fiveSchemes 2 1
      "chunk add failed" (by norm_num) rfl hk hok rfl⟩

theorem fetchAllSchemeData_run_error (env : Env) (s : St) (e : JsError)
    (h : cleanAndDeduplicateData env.now env.freshId (allSources env)
      = .error e) :
    fetchAllSchemeData env s = (.error e, s) := by
  unfold fetchAllSchemeData
  rw [jsTry_rethrow]
  unfold allSources at h
  simp only [run_bind, readEnv, h]
  rfl

theorem fetchAllSchemeData_run_writeFail (env : Env) (s : St)
    (cleaned : List CleanedScheme)
    (h : cleanAndDeduplicateData env.now env.freshId (allSources env)
      = .ok cleaned)
    (hw : env.fsWriteOk = false) :
    fetchAllSchemeData env s = (.error "fs write failed", s) := by
  unfold fetchAllSchemeData
  rw [jsTry_rethrow]
  unfold allSources at h
  simp only [run_bind, readEnv, h, saveDataToFile, hw]
  simp

theorem fetchAllSchemeData_run_ok (env : Env) (s : St)
    (cleaned : List CleanedScheme)
    (h : cleanAndDeduplicateData env.now env.freshId (allSources env)
      = .ok cleaned)
    (hw : env.fsWriteOk = true) :
    fetchAllSchemeData env s = (.ok cleaned, fetchOkSt env s cleaned) := by
  unfold fetchAllSchemeData
  rw [jsTry_rethrow]
  unfold allSources at h
  simp only [run_bind, readEnv, h, saveDataToFile, hw]
  simp [fetchOkSt, run_pure]

theorem selectDataset_run (scraped : List CleanedScheme) (env : Env)
    (st : St) : ∃ d, selectDataset scraped env st = (.ok d, st) := by
  unfold selectDataset
  simp only [run_bind, readEnv]
  cases huse : env.useLocalData
  · exact ⟨scraped, by simp [run_pure]⟩
  · rcases hl : env.localDataset with e | ld
    · exact ⟨scraped, by simp [hl, run_pure]⟩
    · exact ⟨if ld.isEmpty then scraped else ld, by simp [hl, run_pure]⟩

theorem trainStages_run (d : List CleanedScheme) (env : Env) (st : St)
    (hw : env.fsWriteOk = true) :
    ∃ out s1, trainStages d env st = (.ok out, s1)
      ∧ s1.resultsFile = some (mkTrainingResults env out.validation) := by
  obtain ⟨s3, h3⟩ := trainVectorDatabase_ok (processTrainingData d) env
    { st with examplesFile := some ((processTrainingData d).flatMap examplesForScheme) }
  obtain ⟨v, hv⟩ := validateTraining_run env s3
  refine ⟨⟨(processTrainingData d).length,
      ((processTrainingData d).flatMap examplesForScheme).length, v⟩,
    { s3 with resultsFile := some (mkTrainingResults env v) }, ?_, rfl⟩
  unfold trainStages
  simp only [run_bind, generateTrainingExamples_run, hw, if_true, h3, hv,
    saveTrainingResults_run, run_pure]

theorem trainRAGBody_run (env : Env) (s : St) :
    (∃ e s1, trainRAGBody env s = (.error e, s1)
        ∧ s1.resultsFile = s.resultsFile)
    ∨ (∃ out s1, trainRAGBody env s = (.ok out, s1)
        ∧ env.fsWriteOk = true
        ∧ s1.resultsFile = some (mkTrainingResults env out.validation)) := by
  rcases hclean : cleanAndDeduplicateData env.now env.freshId
      (allSources env) with e | cleaned
  · left
    refine ⟨e, s, ?_, rfl⟩
    unfold trainRAGBody
    simp only [run_bind, fetchAllSchemeData_run_error env s e hclean]
  · cases hw : env.fsWriteOk
    · left
      refine ⟨"fs write failed", s, ?_, rfl⟩
      unfold trainRAGBody
      simp only [run_bind,
        fetchAllSchemeData_run_writeFail env s cleaned hclean hw]
    · right
      obtain ⟨d, hd⟩ := selectDataset_run cleaned env (fetchOkSt env s cleaned)
      obtain ⟨out, s1, hrun, hres⟩ :=
        trainStages_run d env (fetchOkSt env s cleaned) hw
      refine ⟨out, s1, ?_, rfl, hres⟩
      unfold trainRAGBody
      simp only [run_bind, fetchAllSchemeData_run_ok env s cleaned hclean hw,
        hd, hrun]

/-- Claim C5: a failed `trainRAGModel` run propagates the causal error to
the caller (the catch rethrows, so the call behaves exactly as its staged
body) and leaves the persisted `training_results.json` snapshot
untouched; the snapshot is written only when the run completes — whenever
the run returns normally, the file write succeeded and the stored
snapshot is the one built from that very run's validation results. -/
theorem trainRAGModel_snapshot (env : Env) (s : St) :
    trainRAGModel env s = trainRAGBody env s
    ∧ (∀ e s1, trainRAGModel env s = (.error e, s1) →
        s1.resultsFile = s.resultsFile)
    ∧ (∀ out s1, trainRAGModel env s = (.ok out, s1) →
        env.fsWriteOk = true
        ∧ s1.resultsFile = some (mkTrainingResults env out.validation)) := by
  have hmodel : trainRAGModel env s = trainRAGBody env s := by
    unfold trainRAGModel
    rw [jsTry_rethrow]
  refine ⟨hmodel, ?_, ?_⟩
  · intro e s1 h
    rw [hmodel] at h
    rcases trainRAGBody_run env s with ⟨e2, s2, h2, hres⟩ | ⟨out, s2, h2, _, _⟩
    · rw [h2] at h
      have hsnd := congrArg Prod.snd h
      simp only at hsnd
      rw [← hsnd]
      exact hres
    · rw [h2] at h
      have hfst := congrArg Prod.fst h
      simp at hfst
  · intro out s1 h
    rw [hmodel] at h
    rcases trainRAGBody_run env s with ⟨e2, s2, h2, hres⟩ | ⟨out2, s2, h2, hw, hres⟩
    · rw [h2] at h
      have hfst := congrArg Prod.fst h
      simp at hfst
    · rw [h2] at h
      have hfst := congrArg Prod.fst h
      have hsnd := congrArg Prod.snd h
      simp only [Except.ok.injEq] at hfst
      simp only at hsnd
      rw [← hsnd, ← hfst]
      exact ⟨hw, hres⟩

/-- Witness for claim C5 at the baseline environment and empty state. -/
theorem trainRAGModel_snapshot_witness :
    trainRAGModel baseEnv emptySt = trainRAGBody baseEnv emptySt
    ∧ (∀ e s1, trainRAGModel baseEnv emptySt = (.error e, s1) →
        s1.resultsFile = emptySt.resultsFile)
    ∧ (∀ out s1, trainRAGModel baseEnv emptySt = (.ok out, s1) →
        baseEnv.fsWriteOk = true
        ∧ s1.resultsFile = some (mkTrainingResults baseEnv out.validation)) :=
  trainRAGModel_snapshot baseEnv emptySt

theorem hasDataChanged_self (l : List CleanedScheme) (t : String)
    (h : ∀ x ∈ l, x.lastUpdated = t) : hasDataChanged l l = false := by
  unfold hasDataChanged
  rw [if_neg (by simp)]
  simp only [List.any_eq_false]
  intro ns hns
  cases hfind : l.find? (fun es => es.id = ns.id) with
  | none =>
    exfalso
    have hnone := List.find?_eq_none.mp hfind ns hns
    simp at hnone
  | some es =>
    have hmem := List.mem_of_find?_eq_some hfind
    simp only [hfind]
    simp [h es hmem, h ns hns]

/-- Claim C2 (code bug): `retrainModel` can never decide to retrain. Its
first step `fetchAllSchemeData` persists the freshly cleaned list to
`scraped_schemes.json` BEFORE `hasDataChanged` compares, so
`loadScrapedData` always reads back the very list just fetched; moreover
every cleaned record carries the same cleaning timestamp `now` as its
`lastUpdated`. Hence whenever the fetch succeeds the comparison sees two
identical datasets and the call returns the no-op skip — already on the
first call, which the claim says performs the full pipeline. -/
theorem retrainModel_always_skips (env : Env) (s : St)
    (cleaned : List CleanedScheme)
    (hclean : cleanAndDeduplicateData env.now env.freshId (allSources env)
      = .ok cleaned)
    (hw : env.fsWriteOk = true) :
    retrainModel env s = (.ok .noop, fetchOkSt env s cleaned) := by
  have hlast : ∀ x ∈ cleaned, x.lastUpdated = env.now :=
    cleanDedupGo_lastUpdated env.now env.freshId (allSources env) [] [] 0
      cleaned (by intro x hx; cases hx) hclean
  have hchanged : hasDataChanged cleaned cleaned = false :=
    hasDataChanged_self cleaned env.now hlast
  unfold retrainModel
  rw [jsTry_rethrow]
  unfold retrainBody
  simp only [run_bind, fetchAllSchemeData_run_ok env s cleaned hclean hw,
    loadScrapedData, fetchOkSt, Option.getD_some, hchanged,
    Bool.false_eq_true, if_false, run_pure]

/-- A concrete raw source record with string name and category. -/
def rawFarm : RawScheme :=
  { rawBase with id := some "r1", name := some "Farm Aid"
                 category := some "Agriculture" }

/-- A concrete environment delivering one raw record, writes succeeding. -/
def scrapeEnv : Env := { baseEnv with myschemeData := [rawFarm] }

/-- Witness for claim C2: on a first call (no dataset persisted yet) with
one fetched record, `retrainModel` already returns the no-op skip. -/
theorem retrainModel_always_skips_witness :
    cleanAndDeduplicateData scrapeEnv.now scrapeEnv.freshId
        (allSources scrapeEnv)
      = .ok [cleanScheme scrapeEnv.now (scrapeEnv.freshId 0) rawFarm]
    ∧ scrapeEnv.fsWriteOk = true
    ∧ emptySt.schemesFile = none
    ∧ retrainModel scrapeEnv emptySt
        = (.ok .noop, fetchOkSt scrapeEnv emptySt
            [cleanScheme scrapeEnv.now (scrapeEnv.freshId 0) rawFarm]) :=
  ⟨rfl, rfl, rfl,
    retrainModel_always_skips scrapeEnv emptySt
      [cleanScheme scrapeEnv.now (scrapeEnv.freshId 0) rawFarm] rfl rfl⟩

/-- The scheduler state of `ScheduledTrainingService` (ragTrainer.js):
the `isTraining` flag plus a ghost counter of the training runs that have
entered their guarded section and not yet hit the `finally` reset. -/
structure SchedSt where
  isTraining : Bool
  active : Nat

/-- The guard-and-set prefix of `forceTraining` (ragTrainer.js lines
844-850): up to its first `await` the call atomically checks the flag —
throwing `Training already in progress` while a run is active — and
otherwise sets it and starts a run. -/
def forceTraining (st : SchedSt) : Except JsError SchedSt :=
  if st.isTraining then .error "Training already in progress"
  else .ok { isTraining := true, active := st.active + 1 }

/-- The guard-and-set prefix of `performScheduledTraining` (ragTrainer.js
lines 738-746): while a run is active the trigger returns at once
(`none`, nothing queued); otherwise it sets the flag and starts a run. -/
def performScheduledTraining (st : SchedSt) : Option SchedSt :=
  if st.isTraining then none
  else some { isTraining := true, active := st.active + 1 }

/-- The `finally` block shared by both entry points: the run concludes
(successfully or not) and the flag is reset. -/
def trainingFinish (st : SchedSt) : SchedSt :=
  { isTraining := false, active := st.active - 1 }

/-- The scheduler states reachable from process start: any interleaving
of accepted forced triggers, accepted scheduled triggers, and run
completions. Rejected or skipped triggers leave the state unchanged, so
they need no transition of their own. -/
inductive SchedReachable : SchedSt → Prop where
  | init : SchedReachable { isTraining := false, active := 0 }
  | force {st st1 : SchedSt} : SchedReachable st →
      forceTraining st = .ok st1 → SchedReachable st1
  | sched {st st1 : SchedSt} : SchedReachable st →
      performScheduledTraining st = some st1 → SchedReachable st1
  | finish {st : SchedSt} : SchedReachable st → st.active ≠ 0 →
      SchedReachable (trainingFinish st)

theorem schedReachable_invariant (st : SchedSt) (h : SchedReachable st) :
    st.active = (if st.isTraining then 1 else 0) := by
  induction h with
  | init => rfl
  | @force st0 st1 hr henter ih =>
    unfold forceTraining at henter
    cases hb : st0.isTraining with
    | true =>
      rw [hb] at henter
      simp at henter
    | false =>
      rw [hb] at henter
      rw [hb] at ih
      simp at henter ih
      rw [← henter]
      simp [ih]
  | @sched st0 st1 hr henter ih =>
    unfold performScheduledTraining at henter
    cases hb : st0.isTraining with
    | true =>
      rw [hb] at henter
      simp at henter
    | false =>
      rw [hb] at henter
      rw [hb] at ih
      simp at henter ih
      rw [← henter]
      simp [ih]
  | @finish st0 hr hact ih =>
    unfold trainingFinish
    cases hb : st0.isTraining with
    | true =>
      rw [hb] at ih
      simp at ih
      simp [ih]
    | false =>
      rw [hb] at ih
      simp at ih
      exact absurd ih hact

/-- Claim C4: in every reachable scheduler state at most one training run
is active; while `isTraining` is set, a forced trigger throws `Training
already in progress` before starting any pipeline work and a scheduled
trigger returns without starting a run — neither starts a second
concurrent run and nothing is queued; and conversely whenever a run is
active the flag is set, so both entry points are closed. -/
theorem scheduler_mutual_exclusion (st : SchedSt) (h : SchedReachable st) :
    st.active ≤ 1
    ∧ (st.active = 1 ↔ st.isTraining = true)
    ∧ (st.isTraining = true →
        forceTraining st = .error "Training already in progress"
        ∧ performScheduledTraining st = none) := by
  have hinv := schedReachable_invariant st h
  refine ⟨?_, ⟨?_, ?_⟩, ?_⟩
  · cases hb : st.isTraining <;> rw [hb] at hinv <;> simp at hinv <;> omega
  · intro hact
    cases hb : st.isTraining
    · rw [hb] at hinv
      simp at hinv
      omega
    · rfl
  · intro hb
    rw [hb] at hinv
    simpa using hinv
  · intro hb
    constructor
    · unfold forceTraining
      rw [hb]
      rfl
    · unfold performScheduledTraining
      rw [hb]
      rfl

/-- Witness for claim C4: the state reached by one accepted forced
trigger is reachable, and there the invariant holds concretely. -/
theorem scheduler_mutual_exclusion_witness :
    SchedReachable { isTraining := true, active := 1 }
    ∧ (({ isTraining := true, active := 1 } : SchedSt).active ≤ 1
      ∧ (({ isTraining := true, active := 1 } : SchedSt).active = 1 ↔
          ({ isTraining := true, active := 1 } : SchedSt).isTraining = true)
      ∧ (({ isTraining := true, active := 1 } : SchedSt).isTraining = true →
          forceTraining { isTraining := true, active := 1 }
              = .error "Training already in progress"
          ∧ performScheduledTraining { isTraining := true, active := 1 }
              = none)) :=
  have hreach : SchedReachable { isTraining := true, active := 1 } :=
    .force .init rfl
  ⟨hreach, scheduler_mutual_exclusion { isTraining := true, active := 1 }
    hreach⟩
